import Mathlib

/-!
Shallow embedding of the PcapNG block framing and dispatch engine
(`src/pcapng/blocks/block_common.rs` of the pcap-file crate).

Bytes are modelled as `Fin 256`, `u32` values as `Nat` with explicit
`% 2^32` where Rust truncates, byte buffers and streams as `List Byte`,
and fallible operations as `Except PcapError`.  A stream reader is
modelled by passing the unconsumed suffix of the stream explicitly.
-/

/-- A byte of the wire format. -/
abbrev Byte := Fin 256

/-- Embed `n % 256` as a byte (the value of `n as u8`). -/
def byteOf (n : Nat) : Byte := ⟨n % 256, Nat.mod_lt _ (by norm_num)⟩

/-- Byte order. This embeds both the crate's `Endianness` enum and the
`byteorder` crate's `BigEndian` / `LittleEndian` marker types used as the
`B : ByteOrder` parameters; `Endianness::new::<B>()` is the identity here. -/
inductive Endianness where
  | Big
  | Little
  deriving DecidableEq, Repr

/-- Errors of the crate (`PcapError`).  The `errors` module is not part of the
given source; the variants are the ones used by `block_common.rs`.
`IoError` - Modelled from the spec: "Underlying I/O failure - propagated
verbatim from the stream path's read calls"; it also stands for the
`io::Error` produced by reading past the end of a slice or writing past the
end of a fixed buffer, which the source propagates with `?`. -/
inductive PcapError where
  | IncompleteBuffer : Nat → PcapError
  | InvalidField : String → PcapError
  | IoError : PcapError
  deriving DecidableEq, Repr

/-- Value of four bytes as a big-endian `u32`. -/
def u32be (b0 b1 b2 b3 : Byte) : Nat :=
  b0.val * 2 ^ 24 + b1.val * 2 ^ 16 + b2.val * 2 ^ 8 + b3.val

/-- Value of four bytes as a little-endian `u32`. -/
def u32le (b0 b1 b2 b3 : Byte) : Nat :=
  b3.val * 2 ^ 24 + b2.val * 2 ^ 16 + b1.val * 2 ^ 8 + b0.val

/-- Value of four bytes in the given order. -/
def readU32val (e : Endianness) (b0 b1 b2 b3 : Byte) : Nat :=
  match e with
  | .Big => u32be b0 b1 b2 b3
  | .Little => u32le b0 b1 b2 b3

/-- Embedding of `read_u32::<B>()` on a slice / stream: consume four bytes and return their
value in order `e`; `none` models the underlying I/O error on a short input. -/
def readU32 (e : Endianness) : List Byte → Option (Nat × List Byte)
  | b0 :: b1 :: b2 :: b3 :: rest => some (readU32val e b0 b1 b2 b3, rest)
  | _ => none

/-- Embedding of `read_exact` of `n` bytes from a stream: `none` models the I/O error on a
short stream. -/
def readExact (n : Nat) (s : List Byte) : Option (List Byte × List Byte) :=
  if s.length < n then none else some (s.take n, s.drop n)

/-- The four bytes of `n as u32` written in order `e`
(`write_u32::<B>`). -/
def bytesOfU32 (e : Endianness) (n : Nat) : List Byte :=
  match e with
  | .Big => [byteOf (n / 2 ^ 24), byteOf (n / 2 ^ 16), byteOf (n / 2 ^ 8), byteOf n]
  | .Little => [byteOf n, byteOf (n / 2 ^ 8), byteOf (n / 2 ^ 16), byteOf (n / 2 ^ 24)]

/-- Embedding of `u32::swap_bytes` (byte order reversal) on the `u32` value `n`. -/
def swapBytes32 (n : Nat) : Nat :=
  n % 256 * 2 ^ 24 + n / 2 ^ 8 % 256 * 2 ^ 16 + n / 2 ^ 16 % 256 * 2 ^ 8 + n / 2 ^ 24 % 256

/-- The `BlockType` tag: the closed tag over the eight known block kinds plus the
`Unknown` catch-all carrying the raw 32-bit code. -/
inductive BlockType where
  | SectionHeader
  | InterfaceDescription
  | Packet
  | SimplePacket
  | NameResolution
  | InterfaceStatistics
  | EnhancedPacket
  | SystemdJournalExport
  | Unknown : Nat → BlockType
  deriving DecidableEq, Repr

/-- Embedding of `impl From<u32> for BlockType` (total; unmapped codes become `Unknown`). -/
def BlockType.fromU32 (src : Nat) : BlockType :=
  if src = 0x0A0D0D0A then .SectionHeader
  else if src = 0x00000001 then .InterfaceDescription
  else if src = 0x00000002 then .Packet
  else if src = 0x00000003 then .SimplePacket
  else if src = 0x00000004 then .NameResolution
  else if src = 0x00000005 then .InterfaceStatistics
  else if src = 0x00000006 then .EnhancedPacket
  else if src = 0x00000009 then .SystemdJournalExport
  else .Unknown src

/-- Embedding of `impl Into<u32> for BlockType` (total; recovers the raw code of `Unknown`). -/
def BlockType.intoU32 : BlockType → Nat
  | .SectionHeader => 0x0A0D0D0A
  | .InterfaceDescription => 0x00000001
  | .Packet => 0x00000002
  | .SimplePacket => 0x00000003
  | .NameResolution => 0x00000004
  | .InterfaceStatistics => 0x00000005
  | .EnhancedPacket => 0x00000006
  | .SystemdJournalExport => 0x00000009
  | .Unknown c => c

/-- The decoded envelope of one PcapNG record (`Block`).  `Cow` bodies
(borrowed vs owned) are both plain byte lists in this embedding. -/
structure Block where
  type_ : BlockType
  initial_len : Nat
  body : List Byte
  trailer_len : Nat
  endianness : Endianness
  deriving DecidableEq, Repr

/-- Embedding of `Block::from_slice::<B>`: zero-copy decode of one block from a slice,
returning the remaining unconsumed slice and the block.
Unreachable `.error .IoError` branches model the `io::Error` a
`read_u32` on a too-short slice would raise; each such read is in fact
guarded by an earlier explicit length check. -/
def Block.from_slice (B : Endianness) (slice : List Byte) :
    Except PcapError (List Byte × Block) :=
  if slice.length < 12 then
    .error (.IncompleteBuffer (12 - slice.length))
  else
    match readU32 B slice with
    | none => .error .IoError
    | some (tcode, s1) =>
      -- Special case for the section header: the endianness is unknown yet
      if BlockType.fromU32 tcode = BlockType.SectionHeader then
        match readU32 .Big s1 with
        | none => .error .IoError
        | some (rawLen, s2) =>
          -- the magic is read from a temporary copy: `s2` itself is not advanced
          match readU32 .Big s2 with
          | none => .error .IoError
          | some (magic, _) =>
            match (if magic = 0x1A2B3C4D then some Endianness.Big
                   else if magic = 0x4D3C2B1A then some Endianness.Little
                   else none) with
            | none => .error (.InvalidField "SectionHeaderBlock: invalid magic number")
            | some endianness =>
              let initial_len :=
                if endianness = Endianness.Little then swapBytes32 rawLen else rawLen
              if initial_len % 4 ≠ 0 then
                .error (.InvalidField "Block: (initial_len % 4) != 0")
              else if initial_len < 12 then
                .error (.InvalidField "Block: initial_len < 12")
              else if s2.length < initial_len - 8 then
                .error (.IncompleteBuffer (initial_len - 8 - s2.length))
              else
                let body := s2.take (initial_len - 12)
                let rem0 := s2.drop (initial_len - 12)
                match readU32 endianness rem0 with
                | none => .error .IoError
                | some (trailer_len, rem) =>
                  if initial_len ≠ trailer_len then
                    .error (.InvalidField "Block initial_length != trailer_length")
                  else
                    .ok (rem,
                      { type_ := BlockType.fromU32 tcode, initial_len := initial_len,
                        body := body, trailer_len := trailer_len, endianness := endianness })
      else
        -- Common case
        match readU32 B s1 with
        | none => .error .IoError
        | some (initial_len, s2) =>
          if initial_len % 4 ≠ 0 then
            .error (.InvalidField "Block: (initial_len % 4) != 0")
          else if initial_len < 12 then
            .error (.InvalidField "Block: initial_len < 12")
          else if s2.length < initial_len - 8 then
            .error (.IncompleteBuffer (initial_len - 8 - s2.length))
          else
            let body := s2.take (initial_len - 12)
            let rem0 := s2.drop (initial_len - 12)
            match readU32 B rem0 with
            | none => .error .IoError
            | some (trailer_len, rem) =>
              if initial_len ≠ trailer_len then
                .error (.InvalidField "Block initial_length != trailer_length")
              else
                .ok (rem,
                  { type_ := BlockType.fromU32 tcode, initial_len := initial_len,
                    body := body, trailer_len := trailer_len, endianness := B })

/-- Embedding of `Block::from_reader::<R, B>`: owned decode of one block from a stream.
The reader is modelled by its unconsumed byte list, returned next to the
block.  In the section-header path the source allocates a zeroed body,
re-serializes the magic big-endian into its first four bytes with
`write_u32` and fills the rest with `read_exact`; that `write_u32` fails
(`WriteZero`) when the body buffer is shorter than 4 bytes, modelled by the
`initial_len - 12 < 4` branch. -/
def Block.from_reader (B : Endianness) (stream : List Byte) :
    Except PcapError (Block × List Byte) :=
  match readU32 B stream with
  | none => .error .IoError
  | some (tcode, s1) =>
    -- Special case for the section header: the endianness is unknown yet
    if BlockType.fromU32 tcode = BlockType.SectionHeader then
      match readU32 .Big s1 with
      | none => .error .IoError
      | some (rawLen, s2) =>
        match readU32 .Big s2 with
        | none => .error .IoError
        | some (magic, s3) =>
          match (if magic = 0x1A2B3C4D then some Endianness.Big
                 else if magic = 0x4D3C2B1A then some Endianness.Little
                 else none) with
          | none => .error (.InvalidField "SectionHeaderBlock: invalid magic number")
          | some endianness =>
            let initial_len :=
              if endianness = Endianness.Little then swapBytes32 rawLen else rawLen
            if initial_len % 4 ≠ 0 then
              .error (.InvalidField "Block: (initial_len % 4) != 0")
            else if initial_len < 12 then
              .error (.InvalidField "Block: initial_len < 12")
            else if initial_len - 12 < 4 then
              .error .IoError
            else
              match readExact (initial_len - 12 - 4) s3 with
              | none => .error .IoError
              | some (tail, s4) =>
                let body := bytesOfU32 .Big magic ++ tail
                match readU32 endianness s4 with
                | none => .error .IoError
                | some (trailer_len, s5) =>
                  if initial_len ≠ trailer_len then
                    .error (.InvalidField "Block initial_length != trailer_length")
                  else
                    .ok ({ type_ := BlockType.fromU32 tcode, initial_len := initial_len,
                           body := body, trailer_len := trailer_len,
                           endianness := endianness }, s5)
    else
      -- Common case
      match readU32 B s1 with
      | none => .error .IoError
      | some (initial_len, s2) =>
        if initial_len % 4 ≠ 0 then
          .error (.InvalidField "Block: (initial_len % 4) != 0")
        else if initial_len < 12 then
          .error (.InvalidField "Block: initial_len < 12")
        else
          match readExact (initial_len - 12) s2 with
          | none => .error .IoError
          | some (body, s3) =>
            match readU32 B s3 with
            | none => .error .IoError
            | some (trailer_len, s4) =>
              if initial_len ≠ trailer_len then
                .error (.InvalidField "Block initial_length != trailer_length")
              else
                .ok ({ type_ := BlockType.fromU32 tcode, initial_len := initial_len,
                       body := body, trailer_len := trailer_len, endianness := B }, s4)

/-- Embedding of `Block::write_to::<B, W>`: the produced bytes together with the returned
byte count `12 + body.len()`. -/
def Block.write_to (B : Endianness) (b : Block) : List Byte × Nat :=
  (bytesOfU32 B b.type_.intoU32 ++ bytesOfU32 B b.initial_len ++ b.body ++
     bytesOfU32 B b.trailer_len,
   12 + b.body.length)

/-- Modelled from the spec: the eight per-type body decoders are external
collaborators, "specified only at their interface boundary":
`decode(order, body_slice) -> (remaining_slice, value) | error`.  The
dispatcher is parametrized over them, one abstract value type per kind. -/
structure Decoders (SH ID PK SP NR ST EP SJ : Type) where
  sectionHeader : Endianness → List Byte → Except PcapError (List Byte × SH)
  interfaceDescription : Endianness → List Byte → Except PcapError (List Byte × ID)
  packet : Endianness → List Byte → Except PcapError (List Byte × PK)
  simplePacket : Endianness → List Byte → Except PcapError (List Byte × SP)
  nameResolution : Endianness → List Byte → Except PcapError (List Byte × NR)
  interfaceStatistics : Endianness → List Byte → Except PcapError (List Byte × ST)
  enhancedPacket : Endianness → List Byte → Except PcapError (List Byte × EP)
  systemdJournalExport : Endianness → List Byte → Except PcapError (List Byte × SJ)

/-- Modelled from the spec: `UnknownBlock` is the "opaque record carrying the
original bytes and a reconstructed total length"; the source constructs it as
`UnknownBlock::new(type_, slice.len() as u32 + 12, slice)`. -/
structure UnknownBlock where
  type_ : BlockType
  length : Nat
  value : List Byte
  deriving DecidableEq, Repr

/-- The `ParsedBlock` union: a tagged union with one variant per known block kind
(abstract body types) plus the `Unknown` variant. -/
inductive ParsedBlock (SH ID PK SP NR ST EP SJ : Type) where
  | SectionHeader : SH → ParsedBlock SH ID PK SP NR ST EP SJ
  | InterfaceDescription : ID → ParsedBlock SH ID PK SP NR ST EP SJ
  | Packet : PK → ParsedBlock SH ID PK SP NR ST EP SJ
  | SimplePacket : SP → ParsedBlock SH ID PK SP NR ST EP SJ
  | NameResolution : NR → ParsedBlock SH ID PK SP NR ST EP SJ
  | InterfaceStatistics : ST → ParsedBlock SH ID PK SP NR ST EP SJ
  | EnhancedPacket : EP → ParsedBlock SH ID PK SP NR ST EP SJ
  | SystemdJournalExport : SJ → ParsedBlock SH ID PK SP NR ST EP SJ
  | Unknown : UnknownBlock → ParsedBlock SH ID PK SP NR ST EP SJ
  deriving DecidableEq

/-- Embedding of `ParsedBlock::from_slice::<B>(type_, slice)`: route the body slice to the
per-type decoder selected by `type_`; the section-header decoder is always
invoked big-endian; unknown types are wrapped without failing, with the
reconstructed total length `slice.len() as u32 + 12` (u32 arithmetic). -/
def ParsedBlock.from_slice {SH ID PK SP NR ST EP SJ : Type}
    (d : Decoders SH ID PK SP NR ST EP SJ) (B : Endianness) (type_ : BlockType)
    (slice : List Byte) :
    Except PcapError (List Byte × ParsedBlock SH ID PK SP NR ST EP SJ) :=
  match type_ with
  | .SectionHeader => do
      let (rem, block) ← d.sectionHeader Endianness.Big slice
      return (rem, ParsedBlock.SectionHeader block)
  | .InterfaceDescription => do
      let (rem, block) ← d.interfaceDescription B slice
      return (rem, ParsedBlock.InterfaceDescription block)
  | .Packet => do
      let (rem, block) ← d.packet B slice
      return (rem, ParsedBlock.Packet block)
  | .SimplePacket => do
      let (rem, block) ← d.simplePacket B slice
      return (rem, ParsedBlock.SimplePacket block)
  | .NameResolution => do
      let (rem, block) ← d.nameResolution B slice
      return (rem, ParsedBlock.NameResolution block)
  | .InterfaceStatistics => do
      let (rem, block) ← d.interfaceStatistics B slice
      return (rem, ParsedBlock.InterfaceStatistics block)
  | .EnhancedPacket => do
      let (rem, block) ← d.enhancedPacket B slice
      return (rem, ParsedBlock.EnhancedPacket block)
  | .SystemdJournalExport => do
      let (rem, block) ← d.systemdJournalExport B slice
      return (rem, ParsedBlock.SystemdJournalExport block)
  | .Unknown c =>
      .ok ([], ParsedBlock.Unknown
        { type_ := BlockType.Unknown c,
          length := (slice.length % 2 ^ 32 + 12) % 2 ^ 32, value := slice })

/-- Embedding of `Block::parsed`: re-dispatch the body through `ParsedBlock::from_slice`
with the byte order recorded on the block, keeping only the value. -/
def Block.parsed {SH ID PK SP NR ST EP SJ : Type}
    (d : Decoders SH ID PK SP NR ST EP SJ) (b : Block) :
    Except PcapError (ParsedBlock SH ID PK SP NR ST EP SJ) :=
  match b.endianness with
  | .Big => (ParsedBlock.from_slice d .Big b.type_ b.body).map (fun r => r.2)
  | .Little => (ParsedBlock.from_slice d .Little b.type_ b.body).map (fun r => r.2)

/-- The `PcapNgBlock` trait data of one per-type codec: its fixed
`BLOCK_TYPE` and its body serializer `write_to` (which writes the body bytes
and returns their count, embedded as the produced byte list whose length is
that count). -/
structure PcapNgCodec (α : Type) where
  blockType : BlockType
  writeTo : Endianness → α → List Byte

/-- The trait's provided method `write_block_to::<B, W>`: first measures the
body by serializing it into `io::sink()`, computes `len = measured + 12`,
then writes the type tag, `len as u32`, the body, and `len as u32` again,
returning `len`. -/
def writeBlockTo {α : Type} (c : PcapNgCodec α) (B : Endianness) (v : α) :
    List Byte × Nat :=
  let len := (c.writeTo B v).length + 12
  (bytesOfU32 B c.blockType.intoU32 ++ bytesOfU32 B len ++ c.writeTo B v ++
     bytesOfU32 B len,
   len)

lemma bytesOfU32_length (e : Endianness) (n : Nat) : (bytesOfU32 e n).length = 4 := by
  cases e <;> rfl

lemma readU32_cons (e : Endianness) (b0 b1 b2 b3 : Byte) (rest : List Byte) :
    readU32 e (b0 :: b1 :: b2 :: b3 :: rest) = some (readU32val e b0 b1 b2 b3, rest) := rfl

lemma readU32_append_bytesOf (e : Endianness) (n : Nat) (rest : List Byte) :
    readU32 e (bytesOfU32 e n ++ rest) = some (n % 2 ^ 32, rest) := by
  cases e <;> simp [bytesOfU32, readU32, readU32val, u32be, u32le, byteOf] <;> omega

lemma readU32_big_bytesOf_little (n : Nat) (rest : List Byte) :
    readU32 .Big (bytesOfU32 .Little n ++ rest) = some (swapBytes32 n, rest) := by
  simp [bytesOfU32, readU32, readU32val, u32be, byteOf, swapBytes32]

lemma swapBytes32_comp (a b c d : Nat) (ha : a < 256) (hb : b < 256) (hc : c < 256)
    (hd : d < 256) :
    swapBytes32 (a * 2 ^ 24 + b * 2 ^ 16 + c * 2 ^ 8 + d) =
      d * 2 ^ 24 + c * 2 ^ 16 + b * 2 ^ 8 + a := by
  unfold swapBytes32
  omega

lemma swapBytes32_swapBytes32 (n : Nat) (h : n < 2 ^ 32) :
    swapBytes32 (swapBytes32 n) = n := by
  have e2 := swapBytes32_comp (n % 256) (n / 2 ^ 8 % 256) (n / 2 ^ 16 % 256) (n / 2 ^ 24 % 256)
    (by omega) (by omega) (by omega) (by omega)
  rw [show swapBytes32 n =
        n % 256 * 2 ^ 24 + n / 2 ^ 8 % 256 * 2 ^ 16 + n / 2 ^ 16 % 256 * 2 ^ 8 +
          n / 2 ^ 24 % 256 from rfl, e2]
  omega

lemma bytesOfU32_big_u32be (b0 b1 b2 b3 : Byte) :
    bytesOfU32 .Big (u32be b0 b1 b2 b3) = [b0, b1, b2, b3] := by
  obtain ⟨v0, h0⟩ := b0
  obtain ⟨v1, h1⟩ := b1
  obtain ⟨v2, h2⟩ := b2
  obtain ⟨v3, h3⟩ := b3
  simp only [bytesOfU32, u32be, byteOf, List.cons.injEq, and_true, Fin.mk.injEq]
  refine ⟨?_, ?_, ?_, ?_⟩ <;> omega

lemma readU32_eq_some {e : Endianness} {s r : List Byte} {v : Nat}
    (h : readU32 e s = some (v, r)) : r = s.drop 4 ∧ s.length = r.length + 4 := by
  rcases s with _ | ⟨b0, s⟩
  · simp [readU32] at h
  rcases s with _ | ⟨b1, s⟩
  · simp [readU32] at h
  rcases s with _ | ⟨b2, s⟩
  · simp [readU32] at h
  rcases s with _ | ⟨b3, s⟩
  · simp [readU32] at h
  simp only [readU32, Option.some.injEq, Prod.mk.injEq] at h
  obtain ⟨-, h2⟩ := h
  subst h2
  simp

lemma readExact_eq_some {n : Nat} {s t r : List Byte}
    (h : readExact n s = some (t, r)) :
    t = s.take n ∧ r = s.drop n ∧ n ≤ s.length ∧ t.length = n := by
  unfold readExact at h
  split at h
  · simp at h
  · simp only [Option.some.injEq, Prod.mk.injEq] at h
    obtain ⟨h1, h2⟩ := h
    subst h1
    subst h2
    rename_i hle
    refine ⟨rfl, rfl, by omega, ?_⟩
    simp only [List.length_take]
    omega

lemma Block.from_slice_ok {B : Endianness} {slice rem : List Byte} {blk : Block}
    (h : Block.from_slice B slice = .ok (rem, blk)) :
    blk.initial_len = blk.trailer_len ∧ blk.initial_len % 4 = 0 ∧
    12 ≤ blk.initial_len ∧ blk.initial_len ≤ slice.length ∧
    rem = slice.drop blk.initial_len := by
  unfold Block.from_slice at h
  split at h
  · simp at h
  cases hr0 : readU32 B slice with
  | none => rw [hr0] at h; simp at h
  | some p0 =>
    obtain ⟨tcode, s1⟩ := p0
    simp only [hr0] at h
    obtain ⟨hs1, hlen1⟩ := readU32_eq_some hr0
    split at h
    · -- SectionHeader path
      cases hr1 : readU32 .Big s1 with
      | none => rw [hr1] at h; simp at h
      | some p1 =>
        obtain ⟨rawLen, s2⟩ := p1
        simp only [hr1] at h
        obtain ⟨hs2, hlen2⟩ := readU32_eq_some hr1
        cases hr2 : readU32 .Big s2 with
        | none => rw [hr2] at h; simp at h
        | some p2 =>
          obtain ⟨magic, junk⟩ := p2
          simp only [hr2] at h
          split at h
          case h_1 => simp at h
          rename_i e heq
          set il := (if e = Endianness.Little then swapBytes32 rawLen else rawLen) with hil
          split at h
          case isTrue => simp at h
          rename_i hmod
          simp only [ne_eq, not_not] at hmod
          split at h
          case isTrue => simp at h
          rename_i hmin
          split at h
          case isTrue => simp at h
          rename_i hbuf
          cases hr3 : readU32 e (s2.drop (il - 12)) with
          | none => rw [hr3] at h; simp at h
          | some p3 =>
            obtain ⟨trailer_len, rem1⟩ := p3
            simp only [hr3] at h
            obtain ⟨hrem1, hlen3⟩ := readU32_eq_some hr3
            split at h
            case isTrue => simp at h
            rename_i htr
            simp only [ne_eq, not_not] at htr
            simp only [Except.ok.injEq, Prod.mk.injEq] at h
            obtain ⟨h1, h2⟩ := h
            subst h1
            subst h2
            simp only [List.length_drop] at hlen3
            dsimp only
            refine ⟨htr, hmod, by omega, by omega, ?_⟩
            rw [hrem1, hs2, hs1]
            simp only [List.drop_drop]
            congr 1
            omega
    · -- common path
      cases hr1 : readU32 B s1 with
      | none => rw [hr1] at h; simp at h
      | some p1 =>
        obtain ⟨initial_len, s2⟩ := p1
        simp only [hr1] at h
        obtain ⟨hs2, hlen2⟩ := readU32_eq_some hr1
        split at h
        case isTrue => simp at h
        rename_i hmod
        simp only [ne_eq, not_not] at hmod
        split at h
        case isTrue => simp at h
        rename_i hmin
        split at h
        case isTrue => simp at h
        rename_i hbuf
        cases hr3 : readU32 B (s2.drop (initial_len - 12)) with
        | none => rw [hr3] at h; simp at h
        | some p3 =>
          obtain ⟨trailer_len, rem1⟩ := p3
          simp only [hr3] at h
          obtain ⟨hrem1, hlen3⟩ := readU32_eq_some hr3
          split at h
          case isTrue => simp at h
          rename_i htr
          simp only [ne_eq, not_not] at htr
          simp only [Except.ok.injEq, Prod.mk.injEq] at h
          obtain ⟨h1, h2⟩ := h
          subst h1
          subst h2
          simp only [List.length_drop] at hlen3
          dsimp only
          refine ⟨htr, hmod, by omega, by omega, ?_⟩
          rw [hrem1, hs2, hs1]
          simp only [List.drop_drop]
          congr 1
          omega

lemma Block.from_reader_ok {B : Endianness} {stream rest : List Byte} {blk : Block}
    (h : Block.from_reader B stream = .ok (blk, rest)) :
    blk.initial_len = blk.trailer_len ∧ blk.initial_len % 4 = 0 ∧ 12 ≤ blk.initial_len := by
  unfold Block.from_reader at h
  cases hr0 : readU32 B stream with
  | none => rw [hr0] at h; simp at h
  | some p0 =>
    obtain ⟨tcode, s1⟩ := p0
    simp only [hr0] at h
    split at h
    · -- SectionHeader path
      cases hr1 : readU32 .Big s1 with
      | none => rw [hr1] at h; simp at h
      | some p1 =>
        obtain ⟨rawLen, s2⟩ := p1
        simp only [hr1] at h
        cases hr2 : readU32 .Big s2 with
        | none => rw [hr2] at h; simp at h
        | some p2 =>
          obtain ⟨magic, s3⟩ := p2
          simp only [hr2] at h
          split at h
          case h_1 => simp at h
          rename_i e heq
          set il := (if e = Endianness.Little then swapBytes32 rawLen else rawLen) with hil
          split at h
          case isTrue => simp at h
          rename_i hmod
          simp only [ne_eq, not_not] at hmod
          split at h
          case isTrue => simp at h
          rename_i hmin
          split at h
          case isTrue => simp at h
          rename_i hfour
          cases hre : readExact (il - 12 - 4) s3 with
          | none => rw [hre] at h; simp at h
          | some pe =>
            obtain ⟨tail, s4⟩ := pe
            simp only [hre] at h
            cases hr3 : readU32 e s4 with
            | none => rw [hr3] at h; simp at h
            | some p3 =>
              obtain ⟨trailer_len, s5⟩ := p3
              simp only [hr3] at h
              split at h
              case isTrue => simp at h
              rename_i htr
              simp only [ne_eq, not_not] at htr
              simp only [Except.ok.injEq, Prod.mk.injEq] at h
              obtain ⟨h1, h2⟩ := h
              subst h1
              dsimp only
              exact ⟨htr, hmod, by omega⟩
    · -- common path
      cases hr1 : readU32 B s1 with
      | none => rw [hr1] at h; simp at h
      | some p1 =>
        obtain ⟨initial_len, s2⟩ := p1
        simp only [hr1] at h
        split at h
        case isTrue => simp at h
        rename_i hmod
        simp only [ne_eq, not_not] at hmod
        split at h
        case isTrue => simp at h
        rename_i hmin
        cases hre : readExact (initial_len - 12) s2 with
        | none => rw [hre] at h; simp at h
        | some pe =>
          obtain ⟨body, s3⟩ := pe
          simp only [hre] at h
          cases hr3 : readU32 B s3 with
          | none => rw [hr3] at h; simp at h
          | some p3 =>
            obtain ⟨trailer_len, s4⟩ := p3
            simp only [hr3] at h
            split at h
            case isTrue => simp at h
            rename_i htr
            simp only [ne_eq, not_not] at htr
            simp only [Except.ok.injEq, Prod.mk.injEq] at h
            obtain ⟨h1, h2⟩ := h
            subst h1
            dsimp only
            exact ⟨htr, hmod, by omega⟩

/-- The four wire bytes of the SectionHeader type tag `0x0A0D0D0A` (a
palindrome, hence read identically in both byte orders). -/
def shTag : List Byte := [byteOf 0x0A, byteOf 0x0D, byteOf 0x0D, byteOf 0x0A]

/-- The wire bytes of the section-header magic as it appears on the wire in a
section written in byte order `e`. -/
def wireMagic (e : Endianness) : List Byte :=
  match e with
  | .Big => [byteOf 0x1A, byteOf 0x2B, byteOf 0x3C, byteOf 0x4D]
  | .Little => [byteOf 0x4D, byteOf 0x3C, byteOf 0x2B, byteOf 0x1A]

/-- The decoded SectionHeader `initial_len`: the leading length read
big-endian, byte-swapped when the discovered endianness is Little (the
source's `if endianness == Endianness::Little { initial_len =
initial_len.swap_bytes() }`). -/
def shLen (e : Endianness) (n : Nat) : Nat :=
  match e with
  | .Big => n
  | .Little => swapBytes32 n

lemma fromU32_shTagVal (C : Endianness) :
    BlockType.fromU32 (readU32val C (byteOf 0x0A) (byteOf 0x0D) (byteOf 0x0D) (byteOf 0x0A)) =
      BlockType.SectionHeader := by
  cases C <;> decide

lemma exceptBindPure {α β : Type} (x : Except PcapError α) (f : α → β) :
    (x.bind fun a => Except.ok (f a)) = x.map f := by
  cases x <;> rfl

instance {α β : Type} [DecidableEq α] [DecidableEq β] : DecidableEq (Except α β) := fun x y =>
  match x, y with
  | .error a, .error b => decidable_of_iff (a = b) (by simp)
  | .error _, .ok _ => isFalse (by simp)
  | .ok _, .error _ => isFalse (by simp)
  | .ok a, .ok b => decidable_of_iff (a = b) (by simp)

/-- Claim C6: `BlockType` conversions are a lossless round trip:
`into(from(c)) = c` for every 32-bit code, `from(into(t)) = t` for every
variant whose code maps back to it (all eight known variants and every
`Unknown c` with unmapped `c`), in particular `Unknown 0xDEADBEEF`. -/
theorem c6_blocktype_roundtrip :
    (∀ c : Nat, BlockType.intoU32 (BlockType.fromU32 c) = c) ∧
    (∀ t : BlockType,
      (∀ c : Nat, t = BlockType.Unknown c → BlockType.fromU32 c = BlockType.Unknown c) →
      BlockType.fromU32 (BlockType.intoU32 t) = t) ∧
    BlockType.fromU32 (BlockType.intoU32 (BlockType.Unknown 0xDEADBEEF)) =
      BlockType.Unknown 0xDEADBEEF := by
  refine ⟨?_, ?_, by decide⟩
  · intro c
    unfold BlockType.fromU32
    split_ifs <;> simp_all [BlockType.intoU32]
  · intro t h
    cases t
    case Unknown c => exact h c rfl
    all_goals decide

/-- Witness for C6 at the unmapped code `0x000000FF`. -/
theorem c6_blocktype_roundtrip_witness :
    BlockType.fromU32 (BlockType.intoU32 (BlockType.Unknown 0x000000FF)) =
      BlockType.Unknown 0x000000FF :=
  c6_blocktype_roundtrip.2.1 (BlockType.Unknown 0x000000FF)
    (fun _ hc => by cases hc; decide)

/-- Claim C5: for every `Unknown` type tag, `ParsedBlock::from_slice` never
fails: it returns `Ok` with the `Unknown` variant carrying the original slice
and the reconstructed total length `slice.len() as u32 + 12` (equal to
`slice.len() + 12` whenever that fits in a u32), with an empty remaining
slice; hence `Block::parsed` on such a block yields the `Unknown` variant,
never an error. -/
theorem c5_unknown_never_fails {SH ID PK SP NR ST EP SJ : Type}
    (d : Decoders SH ID PK SP NR ST EP SJ) :
    (∀ (B : Endianness) (c : Nat) (slice : List Byte),
      ParsedBlock.from_slice d B (BlockType.Unknown c) slice =
        .ok ([], ParsedBlock.Unknown
          { type_ := BlockType.Unknown c,
            length := (slice.length % 2 ^ 32 + 12) % 2 ^ 32, value := slice })) ∧
    (∀ (B : Endianness) (c : Nat) (slice : List Byte), slice.length + 12 < 2 ^ 32 →
      ParsedBlock.from_slice d B (BlockType.Unknown c) slice =
        .ok ([], ParsedBlock.Unknown
          { type_ := BlockType.Unknown c, length := slice.length + 12, value := slice })) ∧
    (∀ (blk : Block) (c : Nat), blk.type_ = BlockType.Unknown c →
      Block.parsed d blk =
        .ok (ParsedBlock.Unknown
          { type_ := BlockType.Unknown c,
            length := (blk.body.length % 2 ^ 32 + 12) % 2 ^ 32, value := blk.body })) := by
  refine ⟨fun B c slice => rfl, ?_, ?_⟩
  · intro B c slice hlt
    have hm : (slice.length % 2 ^ 32 + 12) % 2 ^ 32 = slice.length + 12 := by omega
    rw [show ParsedBlock.from_slice d B (BlockType.Unknown c) slice =
          .ok ([], ParsedBlock.Unknown
            { type_ := BlockType.Unknown c,
              length := (slice.length % 2 ^ 32 + 12) % 2 ^ 32, value := slice }) from rfl, hm]
  · intro blk c htype
    cases hE : blk.endianness <;>
      simp [Block.parsed, hE, htype, ParsedBlock.from_slice, Except.map]

/-- Witness for C5 on a concrete unknown-typed block. -/
theorem c5_unknown_never_fails_witness :
    @ParsedBlock.from_slice Unit Unit Unit Unit Unit Unit Unit Unit
        { sectionHeader := fun _ _ => .error .IoError,
          interfaceDescription := fun _ _ => .error .IoError,
          packet := fun _ _ => .error .IoError,
          simplePacket := fun _ _ => .error .IoError,
          nameResolution := fun _ _ => .error .IoError,
          interfaceStatistics := fun _ _ => .error .IoError,
          enhancedPacket := fun _ _ => .error .IoError,
          systemdJournalExport := fun _ _ => .error .IoError }
        Endianness.Big (BlockType.Unknown 0x000000FF) [byteOf 1, byteOf 2, byteOf 3, byteOf 4] =
      .ok ([], ParsedBlock.Unknown
        { type_ := BlockType.Unknown 0x000000FF, length := 16,
          value := [byteOf 1, byteOf 2, byteOf 3, byteOf 4] }) :=
  (c5_unknown_never_fails _).2.1 Endianness.Big 0x000000FF
    [byteOf 1, byteOf 2, byteOf 3, byteOf 4] (by norm_num)

/-- Claim C9: `ParsedBlock::from_slice` routes each known type tag to exactly
the one matching per-type decoder; the SectionHeader body is always decoded
big-endian, so its result is identical under both caller-supplied orders,
while every other known tag passes the caller-supplied order through. -/
theorem c9_dispatch_routing {SH ID PK SP NR ST EP SJ : Type}
    (d : Decoders SH ID PK SP NR ST EP SJ) (B : Endianness) (slice : List Byte) :
    ParsedBlock.from_slice d B BlockType.SectionHeader slice =
      (d.sectionHeader Endianness.Big slice).map
        (fun r => (r.1, ParsedBlock.SectionHeader r.2)) ∧
    ParsedBlock.from_slice d Endianness.Big BlockType.SectionHeader slice =
      ParsedBlock.from_slice d Endianness.Little BlockType.SectionHeader slice ∧
    ParsedBlock.from_slice d B BlockType.InterfaceDescription slice =
      (d.interfaceDescription B slice).map
        (fun r => (r.1, ParsedBlock.InterfaceDescription r.2)) ∧
    ParsedBlock.from_slice d B BlockType.Packet slice =
      (d.packet B slice).map (fun r => (r.1, ParsedBlock.Packet r.2)) ∧
    ParsedBlock.from_slice d B BlockType.SimplePacket slice =
      (d.simplePacket B slice).map (fun r => (r.1, ParsedBlock.SimplePacket r.2)) ∧
    ParsedBlock.from_slice d B BlockType.NameResolution slice =
      (d.nameResolution B slice).map (fun r => (r.1, ParsedBlock.NameResolution r.2)) ∧
    ParsedBlock.from_slice d B BlockType.InterfaceStatistics slice =
      (d.interfaceStatistics B slice).map
        (fun r => (r.1, ParsedBlock.InterfaceStatistics r.2)) ∧
    ParsedBlock.from_slice d B BlockType.EnhancedPacket slice =
      (d.enhancedPacket B slice).map (fun r => (r.1, ParsedBlock.EnhancedPacket r.2)) ∧
    ParsedBlock.from_slice d B BlockType.SystemdJournalExport slice =
      (d.systemdJournalExport B slice).map
        (fun r => (r.1, ParsedBlock.SystemdJournalExport r.2)) := by
  refine ⟨?_, ?_, ?_, ?_, ?_, ?_, ?_, ?_, ?_⟩
  · cases h : d.sectionHeader Endianness.Big slice <;>
      simp [ParsedBlock.from_slice, h, Except.map]
  · cases h : d.sectionHeader Endianness.Big slice <;>
      simp [ParsedBlock.from_slice, h]
  · cases h : d.interfaceDescription B slice <;>
      simp [ParsedBlock.from_slice, h, Except.map]
  · cases h : d.packet B slice <;> simp [ParsedBlock.from_slice, h, Except.map]
  · cases h : d.simplePacket B slice <;> simp [ParsedBlock.from_slice, h, Except.map]
  · cases h : d.nameResolution B slice <;> simp [ParsedBlock.from_slice, h, Except.map]
  · cases h : d.interfaceStatistics B slice <;>
      simp [ParsedBlock.from_slice, h, Except.map]
  · cases h : d.enhancedPacket B slice <;> simp [ParsedBlock.from_slice, h, Except.map]
  · cases h : d.systemdJournalExport B slice <;>
      simp [ParsedBlock.from_slice, h, Except.map]

lemma frame_trailer_eq_lead (A L w : List Byte) (hA : A.length = 4) (hL : L.length = 4) :
    ((A ++ L ++ w ++ L).drop 4).take 4 =
      (A ++ L ++ w ++ L).drop ((A ++ L ++ w ++ L).length - 4) := by
  have h1 : (A ++ L ++ w ++ L).drop 4 = L ++ (w ++ L) := by
    rw [List.append_assoc, List.append_assoc]
    exact List.drop_left' hA
  have h2 : (A ++ L ++ w ++ L).length - 4 = (A ++ L ++ w).length := by
    simp only [List.length_append, hL]
    omega
  rw [h1, List.take_left' hL, h2, List.drop_left]

/-- Claim C8: `write_block_to` measures the body with a discard sink, writes
the type tag, `total = measured + 12`, the body, and `total` again, and
returns `total`; hence the emitted output has length `total` and its leading
length field (bytes 4..8) equals its trailing length field (last 4 bytes) by
construction. -/
theorem c8_write_block_to_lengths {α : Type} (c : PcapNgCodec α) (B : Endianness) (v : α) :
    (writeBlockTo c B v).2 = (c.writeTo B v).length + 12 ∧
    (writeBlockTo c B v).1 =
      bytesOfU32 B c.blockType.intoU32 ++ bytesOfU32 B (writeBlockTo c B v).2 ++
        c.writeTo B v ++ bytesOfU32 B (writeBlockTo c B v).2 ∧
    (writeBlockTo c B v).1.length = (writeBlockTo c B v).2 ∧
    ((writeBlockTo c B v).1.drop 4).take 4 =
      (writeBlockTo c B v).1.drop ((writeBlockTo c B v).1.length - 4) := by
  refine ⟨rfl, rfl, ?_, ?_⟩
  · show (bytesOfU32 B c.blockType.intoU32 ++ bytesOfU32 B ((c.writeTo B v).length + 12) ++
        c.writeTo B v ++ bytesOfU32 B ((c.writeTo B v).length + 12)).length =
      (c.writeTo B v).length + 12
    simp only [List.length_append, bytesOfU32_length]
    omega
  · exact frame_trailer_eq_lead _ _ _ (bytesOfU32_length _ _) (bytesOfU32_length _ _)

/-- Claim C3: both decode entry points, `Block::from_slice` and
`Block::from_reader`, fail with `InvalidField` when the decoded
`initial_len` is misaligned (e.g. 13), below 12 (e.g. 8), or differs from
the decoded `trailer_len` - in the common path and in the SectionHeader
path under both magics; consequently every successfully decoded block
satisfies `initial_len = trailer_len`, `initial_len % 4 = 0`, and
`initial_len ≥ 12`. -/
theorem c3_length_validation :
    (∀ (B : Endianness) (slice rem : List Byte) (blk : Block),
      Block.from_slice B slice = .ok (rem, blk) →
      blk.initial_len = blk.trailer_len ∧ blk.initial_len % 4 = 0 ∧
        12 ≤ blk.initial_len) ∧
    (∀ (B : Endianness) (stream rest : List Byte) (blk : Block),
      Block.from_reader B stream = .ok (blk, rest) →
      blk.initial_len = blk.trailer_len ∧ blk.initial_len % 4 = 0 ∧
        12 ≤ blk.initial_len) ∧
    (∀ (B : Endianness) (t0 t1 t2 t3 l0 l1 l2 l3 : Byte) (rest : List Byte),
      BlockType.fromU32 (readU32val B t0 t1 t2 t3) ≠ BlockType.SectionHeader →
      4 ≤ rest.length →
      readU32val B l0 l1 l2 l3 % 4 ≠ 0 ∨ readU32val B l0 l1 l2 l3 < 12 →
      ∃ msg, Block.from_slice B (t0 :: t1 :: t2 :: t3 :: l0 :: l1 :: l2 :: l3 :: rest) =
        .error (.InvalidField msg)) ∧
    (∀ (B : Endianness) (t0 t1 t2 t3 l0 l1 l2 l3 r0 r1 r2 r3 : Byte)
        (body rest : List Byte),
      BlockType.fromU32 (readU32val B t0 t1 t2 t3) ≠ BlockType.SectionHeader →
      body.length = readU32val B l0 l1 l2 l3 - 12 →
      readU32val B l0 l1 l2 l3 % 4 = 0 → 12 ≤ readU32val B l0 l1 l2 l3 →
      readU32val B r0 r1 r2 r3 ≠ readU32val B l0 l1 l2 l3 →
      Block.from_slice B (t0 :: t1 :: t2 :: t3 :: l0 :: l1 :: l2 :: l3 ::
          (body ++ r0 :: r1 :: r2 :: r3 :: rest)) =
        .error (.InvalidField "Block initial_length != trailer_length")) ∧
    Block.from_slice Endianness.Big
        [byteOf 0, byteOf 0, byteOf 0, byteOf 1, byteOf 0, byteOf 0, byteOf 0, byteOf 13,
          byteOf 0, byteOf 0, byteOf 0, byteOf 0] =
      .error (.InvalidField "Block: (initial_len % 4) != 0") ∧
    Block.from_slice Endianness.Big
        [byteOf 0, byteOf 0, byteOf 0, byteOf 1, byteOf 0, byteOf 0, byteOf 0, byteOf 8,
          byteOf 0, byteOf 0, byteOf 0, byteOf 0] =
      .error (.InvalidField "Block: initial_len < 12") ∧
    (∀ (B : Endianness) (t0 t1 t2 t3 l0 l1 l2 l3 : Byte) (rest : List Byte),
      BlockType.fromU32 (readU32val B t0 t1 t2 t3) ≠ BlockType.SectionHeader →
      readU32val B l0 l1 l2 l3 % 4 ≠ 0 ∨ readU32val B l0 l1 l2 l3 < 12 →
      ∃ msg, Block.from_reader B (t0 :: t1 :: t2 :: t3 :: l0 :: l1 :: l2 :: l3 :: rest) =
        .error (.InvalidField msg)) ∧
    (∀ (B : Endianness) (t0 t1 t2 t3 l0 l1 l2 l3 r0 r1 r2 r3 : Byte)
        (body rest : List Byte),
      BlockType.fromU32 (readU32val B t0 t1 t2 t3) ≠ BlockType.SectionHeader →
      body.length = readU32val B l0 l1 l2 l3 - 12 →
      readU32val B l0 l1 l2 l3 % 4 = 0 → 12 ≤ readU32val B l0 l1 l2 l3 →
      readU32val B r0 r1 r2 r3 ≠ readU32val B l0 l1 l2 l3 →
      Block.from_reader B (t0 :: t1 :: t2 :: t3 :: l0 :: l1 :: l2 :: l3 ::
          (body ++ r0 :: r1 :: r2 :: r3 :: rest)) =
        .error (.InvalidField "Block initial_length != trailer_length")) ∧
    (∀ (B e : Endianness) (l0 l1 l2 l3 : Byte) (rest : List Byte),
      shLen e (u32be l0 l1 l2 l3) % 4 ≠ 0 ∨ shLen e (u32be l0 l1 l2 l3) < 12 →
      ∃ msg, Block.from_slice B
          (shTag ++ l0 :: l1 :: l2 :: l3 :: (wireMagic e ++ rest)) =
        .error (.InvalidField msg)) ∧
    (∀ (B e : Endianness) (l0 l1 l2 l3 r0 r1 r2 r3 : Byte) (mid rest : List Byte),
      mid.length + 4 = shLen e (u32be l0 l1 l2 l3) - 12 →
      shLen e (u32be l0 l1 l2 l3) % 4 = 0 → 12 ≤ shLen e (u32be l0 l1 l2 l3) →
      readU32val e r0 r1 r2 r3 ≠ shLen e (u32be l0 l1 l2 l3) →
      Block.from_slice B (shTag ++ l0 :: l1 :: l2 :: l3 ::
          (wireMagic e ++ (mid ++ r0 :: r1 :: r2 :: r3 :: rest))) =
        .error (.InvalidField "Block initial_length != trailer_length")) ∧
    (∀ (B e : Endianness) (l0 l1 l2 l3 : Byte) (rest : List Byte),
      shLen e (u32be l0 l1 l2 l3) % 4 ≠ 0 ∨ shLen e (u32be l0 l1 l2 l3) < 12 →
      ∃ msg, Block.from_reader B
          (shTag ++ l0 :: l1 :: l2 :: l3 :: (wireMagic e ++ rest)) =
        .error (.InvalidField msg)) ∧
    (∀ (B e : Endianness) (l0 l1 l2 l3 r0 r1 r2 r3 : Byte) (mid rest : List Byte),
      mid.length = shLen e (u32be l0 l1 l2 l3) - 16 →
      16 ≤ shLen e (u32be l0 l1 l2 l3) → shLen e (u32be l0 l1 l2 l3) % 4 = 0 →
      readU32val e r0 r1 r2 r3 ≠ shLen e (u32be l0 l1 l2 l3) →
      Block.from_reader B (shTag ++ l0 :: l1 :: l2 :: l3 ::
          (wireMagic e ++ (mid ++ r0 :: r1 :: r2 :: r3 :: rest))) =
        .error (.InvalidField "Block initial_length != trailer_length")) := by
  refine ⟨?_, ?_, ?_, ?_, by decide, by decide, ?_, ?_, ?_, ?_, ?_, ?_⟩
  · intro B slice rem blk h
    obtain ⟨h1, h2, h3, -, -⟩ := Block.from_slice_ok h
    exact ⟨h1, h2, h3⟩
  · intro B stream rest blk h
    exact Block.from_reader_ok h
  · intro B t0 t1 t2 t3 l0 l1 l2 l3 rest htype hrest hbad
    have hlen : ¬ ((t0 :: t1 :: t2 :: t3 :: l0 :: l1 :: l2 :: l3 :: rest).length < 12) := by
      simp only [List.length_cons]
      omega
    unfold Block.from_slice
    rw [if_neg hlen]
    simp only [readU32_cons]
    rw [if_neg htype]
    by_cases hm : readU32val B l0 l1 l2 l3 % 4 ≠ 0
    · exact ⟨"Block: (initial_len % 4) != 0", by rw [if_pos hm]⟩
    · have hlt : readU32val B l0 l1 l2 l3 < 12 := by
        rcases hbad with hb | hb
        · exact absurd hb hm
        · exact hb
      exact ⟨"Block: initial_len < 12", by rw [if_neg hm, if_pos hlt]⟩
  · intro B t0 t1 t2 t3 l0 l1 l2 l3 r0 r1 r2 r3 body rest htype hbody hmod hmin htrne
    have hlen : ¬ ((t0 :: t1 :: t2 :: t3 :: l0 :: l1 :: l2 :: l3 ::
        (body ++ r0 :: r1 :: r2 :: r3 :: rest)).length < 12) := by
      simp only [List.length_cons, List.length_append]
      omega
    have hmod2 : ¬ (readU32val B l0 l1 l2 l3 % 4 ≠ 0) := by omega
    have hmin2 : ¬ (readU32val B l0 l1 l2 l3 < 12) := by omega
    have hbuf : ¬ ((body ++ r0 :: r1 :: r2 :: r3 :: rest).length <
        readU32val B l0 l1 l2 l3 - 8) := by
      simp only [List.length_append, List.length_cons]
      omega
    have hdrop : (body ++ r0 :: r1 :: r2 :: r3 :: rest).drop
        (readU32val B l0 l1 l2 l3 - 12) = r0 :: r1 :: r2 :: r3 :: rest := by
      rw [← hbody]
      exact List.drop_left _ _
    have htrne2 : readU32val B l0 l1 l2 l3 ≠ readU32val B r0 r1 r2 r3 := Ne.symm htrne
    unfold Block.from_slice
    rw [if_neg hlen]
    simp only [readU32_cons]
    rw [if_neg htype]
    simp only [if_neg hmod2, if_neg hmin2, if_neg hbuf, hdrop, readU32_cons,
      if_pos htrne2]
  · intro B t0 t1 t2 t3 l0 l1 l2 l3 rest htype hbad
    unfold Block.from_reader
    simp only [readU32_cons]
    rw [if_neg htype]
    by_cases hm : readU32val B l0 l1 l2 l3 % 4 ≠ 0
    · exact ⟨"Block: (initial_len % 4) != 0", by rw [if_pos hm]⟩
    · have hlt : readU32val B l0 l1 l2 l3 < 12 := by
        rcases hbad with hb | hb
        · exact absurd hb hm
        · exact hb
      exact ⟨"Block: initial_len < 12", by rw [if_neg hm, if_pos hlt]⟩
  · intro B t0 t1 t2 t3 l0 l1 l2 l3 r0 r1 r2 r3 body rest htype hbody hmod hmin htrne
    have hmod2 : ¬ (readU32val B l0 l1 l2 l3 % 4 ≠ 0) := by omega
    have hmin2 : ¬ (readU32val B l0 l1 l2 l3 < 12) := by omega
    have hre : readExact (readU32val B l0 l1 l2 l3 - 12)
        (body ++ r0 :: r1 :: r2 :: r3 :: rest) =
        some (body, r0 :: r1 :: r2 :: r3 :: rest) := by
      unfold readExact
      rw [if_neg (by simp only [List.length_append, List.length_cons]; omega)]
      rw [← hbody, List.take_left, List.drop_left]
    have htrne2 : readU32val B l0 l1 l2 l3 ≠ readU32val B r0 r1 r2 r3 := Ne.symm htrne
    unfold Block.from_reader
    simp only [readU32_cons]
    rw [if_neg htype]
    simp only [if_neg hmod2, if_neg hmin2, hre, readU32_cons, if_pos htrne2]
  · intro B e l0 l1 l2 l3 rest hbad
    cases e
    · have hlen : ¬ ((shTag ++ l0 :: l1 :: l2 :: l3 ::
          (wireMagic Endianness.Big ++ rest)).length < 12) := by
        simp only [shTag, wireMagic, List.length_append, List.length_cons, List.length_nil]
        omega
      have hmagval : u32be (byteOf 0x1A) (byteOf 0x2B) (byteOf 0x3C) (byteOf 0x4D) =
          0x1A2B3C4D := by decide
      simp only [shLen] at hbad
      unfold Block.from_slice
      rw [if_neg hlen]
      simp only [shTag, wireMagic, List.cons_append, List.nil_append, readU32_cons]
      rw [if_pos (fromU32_shTagVal B)]
      simp only [readU32val, hmagval]
      simp only [if_true, if_neg (show ¬(Endianness.Big = Endianness.Little) from by decide)]
      rcases hbad with hmod | hmin
      · exact ⟨"Block: (initial_len % 4) != 0", by rw [if_pos hmod]⟩
      · by_cases hmod0 : u32be l0 l1 l2 l3 % 4 ≠ 0
        · exact ⟨"Block: (initial_len % 4) != 0", by rw [if_pos hmod0]⟩
        · exact ⟨"Block: initial_len < 12", by rw [if_neg hmod0, if_pos hmin]⟩
    · have hlen : ¬ ((shTag ++ l0 :: l1 :: l2 :: l3 ::
          (wireMagic Endianness.Little ++ rest)).length < 12) := by
        simp only [shTag, wireMagic, List.length_append, List.length_cons, List.length_nil]
        omega
      have hmagval : u32be (byteOf 0x4D) (byteOf 0x3C) (byteOf 0x2B) (byteOf 0x1A) =
          0x4D3C2B1A := by decide
      simp only [shLen] at hbad
      unfold Block.from_slice
      rw [if_neg hlen]
      simp only [shTag, wireMagic, List.cons_append, List.nil_append, readU32_cons]
      rw [if_pos (fromU32_shTagVal B)]
      simp only [readU32val, hmagval]
      simp only [if_neg (show ¬((0x4D3C2B1A : Nat) = 0x1A2B3C4D) from by decide), if_true]
      rcases hbad with hmod | hmin
      · exact ⟨"Block: (initial_len % 4) != 0", by rw [if_pos hmod]⟩
      · by_cases hmod0 : swapBytes32 (u32be l0 l1 l2 l3) % 4 ≠ 0
        · exact ⟨"Block: (initial_len % 4) != 0", by rw [if_pos hmod0]⟩
        · exact ⟨"Block: initial_len < 12", by rw [if_neg hmod0, if_pos hmin]⟩
  · intro B e l0 l1 l2 l3 r0 r1 r2 r3 mid rest hmidlen hmod hmin htrne
    cases e
    · simp only [shLen] at hmidlen hmod hmin htrne
      have hlen : ¬ ((shTag ++ l0 :: l1 :: l2 :: l3 :: (wireMagic Endianness.Big ++
          (mid ++ r0 :: r1 :: r2 :: r3 :: rest))).length < 12) := by
        simp only [shTag, wireMagic, List.length_append, List.length_cons, List.length_nil]
        omega
      have hmagval : u32be (byteOf 0x1A) (byteOf 0x2B) (byteOf 0x3C) (byteOf 0x4D) =
          0x1A2B3C4D := by decide
      have hmod2 : ¬ (u32be l0 l1 l2 l3 % 4 ≠ 0) := by omega
      have hmin2 : ¬ (u32be l0 l1 l2 l3 < 12) := by omega
      have hbuf : ¬ ((byteOf 0x1A :: byteOf 0x2B :: byteOf 0x3C :: byteOf 0x4D ::
          (mid ++ r0 :: r1 :: r2 :: r3 :: rest)).length < u32be l0 l1 l2 l3 - 8) := by
        simp only [List.length_cons, List.length_append]
        omega
      have hdrop : List.drop (u32be l0 l1 l2 l3 - 12)
          (byteOf 0x1A :: byteOf 0x2B :: byteOf 0x3C :: byteOf 0x4D ::
            (mid ++ r0 :: r1 :: r2 :: r3 :: rest)) = r0 :: r1 :: r2 :: r3 :: rest := by
        rw [show byteOf 0x1A :: byteOf 0x2B :: byteOf 0x3C :: byteOf 0x4D ::
            (mid ++ r0 :: r1 :: r2 :: r3 :: rest) =
            (byteOf 0x1A :: byteOf 0x2B :: byteOf 0x3C :: byteOf 0x4D :: mid) ++
              r0 :: r1 :: r2 :: r3 :: rest from by simp]
        rw [show u32be l0 l1 l2 l3 - 12 =
            (byteOf 0x1A :: byteOf 0x2B :: byteOf 0x3C :: byteOf 0x4D :: mid).length from by
          simp only [List.length_cons]
          omega]
        exact List.drop_left _ _
      have htrne2 : u32be l0 l1 l2 l3 ≠ readU32val Endianness.Big r0 r1 r2 r3 :=
        Ne.symm htrne
      unfold Block.from_slice
      rw [if_neg hlen]
      simp only [shTag, wireMagic, List.cons_append, List.nil_append, readU32_cons]
      rw [if_pos (fromU32_shTagVal B)]
      simp only [readU32val, hmagval]
      simp only [if_true, if_neg (show ¬(Endianness.Big = Endianness.Little) from by decide)]
      simp only [if_neg hmod2, if_neg hmin2, if_neg hbuf, hdrop, readU32_cons,
        if_pos htrne2]
    · simp only [shLen] at hmidlen hmod hmin htrne
      have hlen : ¬ ((shTag ++ l0 :: l1 :: l2 :: l3 :: (wireMagic Endianness.Little ++
          (mid ++ r0 :: r1 :: r2 :: r3 :: rest))).length < 12) := by
        simp only [shTag, wireMagic, List.length_append, List.length_cons, List.length_nil]
        omega
      have hmagval : u32be (byteOf 0x4D) (byteOf 0x3C) (byteOf 0x2B) (byteOf 0x1A) =
          0x4D3C2B1A := by decide
      have hmod2 : ¬ (swapBytes32 (u32be l0 l1 l2 l3) % 4 ≠ 0) := by omega
      have hmin2 : ¬ (swapBytes32 (u32be l0 l1 l2 l3) < 12) := by omega
      have hbuf : ¬ ((byteOf 0x4D :: byteOf 0x3C :: byteOf 0x2B :: byteOf 0x1A ::
          (mid ++ r0 :: r1 :: r2 :: r3 :: rest)).length <
            swapBytes32 (u32be l0 l1 l2 l3) - 8) := by
        simp only [List.length_cons, List.length_append]
        omega
      have hdrop : List.drop (swapBytes32 (u32be l0 l1 l2 l3) - 12)
          (byteOf 0x4D :: byteOf 0x3C :: byteOf 0x2B :: byteOf 0x1A ::
            (mid ++ r0 :: r1 :: r2 :: r3 :: rest)) = r0 :: r1 :: r2 :: r3 :: rest := by
        rw [show byteOf 0x4D :: byteOf 0x3C :: byteOf 0x2B :: byteOf 0x1A ::
            (mid ++ r0 :: r1 :: r2 :: r3 :: rest) =
            (byteOf 0x4D :: byteOf 0x3C :: byteOf 0x2B :: byteOf 0x1A :: mid) ++
              r0 :: r1 :: r2 :: r3 :: rest from by simp]
        rw [show swapBytes32 (u32be l0 l1 l2 l3) - 12 =
            (byteOf 0x4D :: byteOf 0x3C :: byteOf 0x2B :: byteOf 0x1A :: mid).length from by
          simp only [List.length_cons]
          omega]
        exact List.drop_left _ _
      have htrne2 : swapBytes32 (u32be l0 l1 l2 l3) ≠
          readU32val Endianness.Little r0 r1 r2 r3 := Ne.symm htrne
      unfold Block.from_slice
      rw [if_neg hlen]
      simp only [shTag, wireMagic, List.cons_append, List.nil_append, readU32_cons]
      rw [if_pos (fromU32_shTagVal B)]
      simp only [readU32val, hmagval]
      simp only [if_neg (show ¬((0x4D3C2B1A : Nat) = 0x1A2B3C4D) from by decide), if_true]
      simp only [if_neg hmod2, if_neg hmin2, if_neg hbuf, hdrop, readU32_cons,
        if_pos htrne2]
  · intro B e l0 l1 l2 l3 rest hbad
    cases e
    · have hmagval : u32be (byteOf 0x1A) (byteOf 0x2B) (byteOf 0x3C) (byteOf 0x4D) =
          0x1A2B3C4D := by decide
      simp only [shLen] at hbad
      unfold Block.from_reader
      simp only [shTag, wireMagic, List.cons_append, List.nil_append, readU32_cons]
      rw [if_pos (fromU32_shTagVal B)]
      simp only [readU32val, hmagval]
      simp only [if_true, if_neg (show ¬(Endianness.Big = Endianness.Little) from by decide)]
      rcases hbad with hmod | hmin
      · exact ⟨"Block: (initial_len % 4) != 0", by rw [if_pos hmod]⟩
      · by_cases hmod0 : u32be l0 l1 l2 l3 % 4 ≠ 0
        · exact ⟨"Block: (initial_len % 4) != 0", by rw [if_pos hmod0]⟩
        · exact ⟨"Block: initial_len < 12", by rw [if_neg hmod0, if_pos hmin]⟩
    · have hmagval : u32be (byteOf 0x4D) (byteOf 0x3C) (byteOf 0x2B) (byteOf 0x1A) =
          0x4D3C2B1A := by decide
      simp only [shLen] at hbad
      unfold Block.from_reader
      simp only [shTag, wireMagic, List.cons_append, List.nil_append, readU32_cons]
      rw [if_pos (fromU32_shTagVal B)]
      simp only [readU32val, hmagval]
      simp only [if_neg (show ¬((0x4D3C2B1A : Nat) = 0x1A2B3C4D) from by decide), if_true]
      rcases hbad with hmod | hmin
      · exact ⟨"Block: (initial_len % 4) != 0", by rw [if_pos hmod]⟩
      · by_cases hmod0 : swapBytes32 (u32be l0 l1 l2 l3) % 4 ≠ 0
        · exact ⟨"Block: (initial_len % 4) != 0", by rw [if_pos hmod0]⟩
        · exact ⟨"Block: initial_len < 12", by rw [if_neg hmod0, if_pos hmin]⟩
  · intro B e l0 l1 l2 l3 r0 r1 r2 r3 mid rest hmidlen h16 hmod htrne
    cases e
    · simp only [shLen] at hmidlen h16 hmod htrne
      have hmagval : u32be (byteOf 0x1A) (byteOf 0x2B) (byteOf 0x3C) (byteOf 0x4D) =
          0x1A2B3C4D := by decide
      have hmod2 : ¬ (u32be l0 l1 l2 l3 % 4 ≠ 0) := by omega
      have hmin2 : ¬ (u32be l0 l1 l2 l3 < 12) := by omega
      have h42 : ¬ (u32be l0 l1 l2 l3 - 12 < 4) := by omega
      have hre : readExact (u32be l0 l1 l2 l3 - 12 - 4)
          (mid ++ r0 :: r1 :: r2 :: r3 :: rest) =
          some (mid, r0 :: r1 :: r2 :: r3 :: rest) := by
        unfold readExact
        rw [if_neg (by simp only [List.length_append, List.length_cons]; omega)]
        rw [show u32be l0 l1 l2 l3 - 12 - 4 = mid.length from by omega]
        rw [List.take_left, List.drop_left]
      have htrne2 : u32be l0 l1 l2 l3 ≠ readU32val Endianness.Big r0 r1 r2 r3 :=
        Ne.symm htrne
      unfold Block.from_reader
      simp only [shTag, wireMagic, List.cons_append, List.nil_append, readU32_cons]
      rw [if_pos (fromU32_shTagVal B)]
      simp only [readU32val, hmagval]
      simp only [if_true, if_neg (show ¬(Endianness.Big = Endianness.Little) from by decide)]
      simp only [if_neg hmod2, if_neg hmin2, if_neg h42, hre, readU32_cons,
        if_pos htrne2]
    · simp only [shLen] at hmidlen h16 hmod htrne
      have hmagval : u32be (byteOf 0x4D) (byteOf 0x3C) (byteOf 0x2B) (byteOf 0x1A) =
          0x4D3C2B1A := by decide
      have hmod2 : ¬ (swapBytes32 (u32be l0 l1 l2 l3) % 4 ≠ 0) := by omega
      have hmin2 : ¬ (swapBytes32 (u32be l0 l1 l2 l3) < 12) := by omega
      have h42 : ¬ (swapBytes32 (u32be l0 l1 l2 l3) - 12 < 4) := by omega
      have hre : readExact (swapBytes32 (u32be l0 l1 l2 l3) - 12 - 4)
          (mid ++ r0 :: r1 :: r2 :: r3 :: rest) =
          some (mid, r0 :: r1 :: r2 :: r3 :: rest) := by
        unfold readExact
        rw [if_neg (by simp only [List.length_append, List.length_cons]; omega)]
        rw [show swapBytes32 (u32be l0 l1 l2 l3) - 12 - 4 = mid.length from by omega]
        rw [List.take_left, List.drop_left]
      have htrne2 : swapBytes32 (u32be l0 l1 l2 l3) ≠
          readU32val Endianness.Little r0 r1 r2 r3 := Ne.symm htrne
      unfold Block.from_reader
      simp only [shTag, wireMagic, List.cons_append, List.nil_append, readU32_cons]
      rw [if_pos (fromU32_shTagVal B)]
      simp only [readU32val, hmagval]
      simp only [if_neg (show ¬((0x4D3C2B1A : Nat) = 0x1A2B3C4D) from by decide), if_true]
      simp only [if_neg hmod2, if_neg hmin2, if_neg h42, hre, readU32_cons,
        if_pos htrne2]

/-- Witness for C3: a minimal InterfaceDescription block decodes on both
paths with the invariants holding; misaligned and mismatched-trailer inputs
fail with `InvalidField` on both entry points, in the common and
SectionHeader paths. -/
theorem c3_length_validation_witness :
    ((12 : Nat) = 12 ∧ (12 : Nat) % 4 = 0 ∧ (12 : Nat) ≤ 12) ∧
    ((12 : Nat) = 12 ∧ (12 : Nat) % 4 = 0 ∧ (12 : Nat) ≤ 12) ∧
    (∃ msg, Block.from_slice Endianness.Big
        (byteOf 0 :: byteOf 0 :: byteOf 0 :: byteOf 1 :: byteOf 0 :: byteOf 0 :: byteOf 0 ::
          byteOf 13 :: [byteOf 0, byteOf 0, byteOf 0, byteOf 0]) =
      .error (.InvalidField msg)) ∧
    Block.from_slice Endianness.Big
        (byteOf 0 :: byteOf 0 :: byteOf 0 :: byteOf 1 :: byteOf 0 :: byteOf 0 :: byteOf 0 ::
          byteOf 12 :: ([] ++ byteOf 0 :: byteOf 0 :: byteOf 0 :: byteOf 16 :: [])) =
      .error (.InvalidField "Block initial_length != trailer_length") ∧
    (∃ msg, Block.from_reader Endianness.Big
        (byteOf 0 :: byteOf 0 :: byteOf 0 :: byteOf 1 :: byteOf 0 :: byteOf 0 :: byteOf 0 ::
          byteOf 13 :: []) =
      .error (.InvalidField msg)) ∧
    Block.from_reader Endianness.Big
        (byteOf 0 :: byteOf 0 :: byteOf 0 :: byteOf 1 :: byteOf 0 :: byteOf 0 :: byteOf 0 ::
          byteOf 12 :: ([] ++ byteOf 0 :: byteOf 0 :: byteOf 0 :: byteOf 16 :: [])) =
      .error (.InvalidField "Block initial_length != trailer_length") ∧
    (∃ msg, Block.from_slice Endianness.Big
        (shTag ++ byteOf 0 :: byteOf 0 :: byteOf 0 :: byteOf 13 ::
          (wireMagic Endianness.Big ++ [])) =
      .error (.InvalidField msg)) ∧
    Block.from_slice Endianness.Big
        (shTag ++ byteOf 0 :: byteOf 0 :: byteOf 0 :: byteOf 16 ::
          (wireMagic Endianness.Big ++
            ([] ++ byteOf 0 :: byteOf 0 :: byteOf 0 :: byteOf 20 :: []))) =
      .error (.InvalidField "Block initial_length != trailer_length") ∧
    (∃ msg, Block.from_reader Endianness.Big
        (shTag ++ byteOf 13 :: byteOf 0 :: byteOf 0 :: byteOf 0 ::
          (wireMagic Endianness.Little ++ [])) =
      .error (.InvalidField msg)) ∧
    Block.from_reader Endianness.Big
        (shTag ++ byteOf 0 :: byteOf 0 :: byteOf 0 :: byteOf 20 ::
          (wireMagic Endianness.Big ++
            ([byteOf 0, byteOf 0, byteOf 0, byteOf 0] ++
              byteOf 0 :: byteOf 0 :: byteOf 0 :: byteOf 16 :: []))) =
      .error (.InvalidField "Block initial_length != trailer_length") :=
  ⟨c3_length_validation.1 Endianness.Big
      [byteOf 0, byteOf 0, byteOf 0, byteOf 1, byteOf 0, byteOf 0, byteOf 0, byteOf 12,
        byteOf 0, byteOf 0, byteOf 0, byteOf 12] []
      ⟨BlockType.InterfaceDescription, 12, [], 12, Endianness.Big⟩ (by decide),
   c3_length_validation.2.1 Endianness.Big
      [byteOf 0, byteOf 0, byteOf 0, byteOf 1, byteOf 0, byteOf 0, byteOf 0, byteOf 12,
        byteOf 0, byteOf 0, byteOf 0, byteOf 12] []
      ⟨BlockType.InterfaceDescription, 12, [], 12, Endianness.Big⟩ (by decide),
   c3_length_validation.2.2.1 Endianness.Big (byteOf 0) (byteOf 0) (byteOf 0) (byteOf 1)
      (byteOf 0) (byteOf 0) (byteOf 0) (byteOf 13) [byteOf 0, byteOf 0, byteOf 0, byteOf 0]
      (by decide) (by decide) (by decide),
   c3_length_validation.2.2.2.1 Endianness.Big (byteOf 0) (byteOf 0) (byteOf 0) (byteOf 1)
      (byteOf 0) (byteOf 0) (byteOf 0) (byteOf 12) (byteOf 0) (byteOf 0) (byteOf 0)
      (byteOf 16) [] [] (by decide) (by decide) (by decide) (by decide) (by decide),
   c3_length_validation.2.2.2.2.2.2.1 Endianness.Big (byteOf 0) (byteOf 0) (byteOf 0)
      (byteOf 1) (byteOf 0) (byteOf 0) (byteOf 0) (byteOf 13) []
      (by decide) (by decide),
   c3_length_validation.2.2.2.2.2.2.2.1 Endianness.Big (byteOf 0) (byteOf 0) (byteOf 0)
      (byteOf 1) (byteOf 0) (byteOf 0) (byteOf 0) (byteOf 12) (byteOf 0) (byteOf 0)
      (byteOf 0) (byteOf 16) [] []
      (by decide) (by decide) (by decide) (by decide) (by decide),
   c3_length_validation.2.2.2.2.2.2.2.2.1 Endianness.Big Endianness.Big (byteOf 0)
      (byteOf 0) (byteOf 0) (byteOf 13) [] (by decide),
   c3_length_validation.2.2.2.2.2.2.2.2.2.1 Endianness.Big Endianness.Big (byteOf 0)
      (byteOf 0) (byteOf 0) (byteOf 16) (byteOf 0) (byteOf 0) (byteOf 0) (byteOf 20) [] []
      (by decide) (by decide) (by decide) (by decide),
   c3_length_validation.2.2.2.2.2.2.2.2.2.2.1 Endianness.Big Endianness.Little (byteOf 13)
      (byteOf 0) (byteOf 0) (byteOf 0) [] (by decide),
   c3_length_validation.2.2.2.2.2.2.2.2.2.2.2 Endianness.Big Endianness.Big (byteOf 0)
      (byteOf 0) (byteOf 0) (byteOf 20) (byteOf 0) (byteOf 0) (byteOf 0) (byteOf 16)
      [byteOf 0, byteOf 0, byteOf 0, byteOf 0] []
      (by decide) (by decide) (by decide) (by decide)⟩

/-- Claim C10: a successful `Block::from_slice` consumes exactly
`initial_len` bytes: the returned remainder is the suffix of the input
starting at offset `initial_len`, so its length is the input length minus
`initial_len`, in both the SectionHeader and common paths. -/
theorem c10_from_slice_consumes_initial_len {B : Endianness} {slice rem : List Byte}
    {blk : Block} (h : Block.from_slice B slice = .ok (rem, blk)) :
    rem = slice.drop blk.initial_len ∧
    rem.length = slice.length - blk.initial_len ∧ blk.initial_len ≤ slice.length := by
  obtain ⟨-, -, -, hle, hdrop⟩ := Block.from_slice_ok h
  refine ⟨hdrop, ?_, hle⟩
  rw [hdrop, List.length_drop]

/-- Witness for C10 on a 13-byte buffer holding one minimal block plus one
extra byte. -/
theorem c10_from_slice_consumes_initial_len_witness :
    ([byteOf 0xAA] : List Byte) =
      List.drop 12 [byteOf 0, byteOf 0, byteOf 0, byteOf 1, byteOf 0, byteOf 0, byteOf 0,
        byteOf 12, byteOf 0, byteOf 0, byteOf 0, byteOf 12, byteOf 0xAA] ∧
    ([byteOf 0xAA] : List Byte).length = 13 - 12 ∧ (12 : Nat) ≤ 13 :=
  @c10_from_slice_consumes_initial_len Endianness.Big
    [byteOf 0, byteOf 0, byteOf 0, byteOf 1, byteOf 0, byteOf 0, byteOf 0, byteOf 12,
      byteOf 0, byteOf 0, byteOf 0, byteOf 12, byteOf 0xAA]
    [byteOf 0xAA] ⟨BlockType.InterfaceDescription, 12, [], 12, Endianness.Big⟩ (by decide)

/-- Claim C4: `Block::from_slice` on a slice shorter than 12 bytes fails with
`IncompleteBuffer (12 - len)`; and once the type tag and `initial_len` have
been read and validated, a remaining slice shorter than `initial_len - 8`
bytes fails with `IncompleteBuffer` carrying exactly the shortfall, in both
the common and SectionHeader (both magics) paths. -/
theorem c4_incomplete_buffer :
    (∀ (B : Endianness) (slice : List Byte), slice.length < 12 →
      Block.from_slice B slice = .error (.IncompleteBuffer (12 - slice.length))) ∧
    (∀ (B : Endianness) (t0 t1 t2 t3 l0 l1 l2 l3 : Byte) (rest : List Byte),
      BlockType.fromU32 (readU32val B t0 t1 t2 t3) ≠ BlockType.SectionHeader →
      4 ≤ rest.length →
      readU32val B l0 l1 l2 l3 % 4 = 0 → 12 ≤ readU32val B l0 l1 l2 l3 →
      rest.length < readU32val B l0 l1 l2 l3 - 8 →
      Block.from_slice B (t0 :: t1 :: t2 :: t3 :: l0 :: l1 :: l2 :: l3 :: rest) =
        .error (.IncompleteBuffer (readU32val B l0 l1 l2 l3 - 8 - rest.length))) ∧
    (∀ (B : Endianness) (l0 l1 l2 l3 : Byte) (rest : List Byte),
      u32be l0 l1 l2 l3 % 4 = 0 → 12 ≤ u32be l0 l1 l2 l3 →
      rest.length + 4 < u32be l0 l1 l2 l3 - 8 →
      Block.from_slice B
          (shTag ++ l0 :: l1 :: l2 :: l3 :: (wireMagic Endianness.Big ++ rest)) =
        .error (.IncompleteBuffer (u32be l0 l1 l2 l3 - 8 - (rest.length + 4)))) ∧
    (∀ (B : Endianness) (l0 l1 l2 l3 : Byte) (rest : List Byte),
      swapBytes32 (u32be l0 l1 l2 l3) % 4 = 0 → 12 ≤ swapBytes32 (u32be l0 l1 l2 l3) →
      rest.length + 4 < swapBytes32 (u32be l0 l1 l2 l3) - 8 →
      Block.from_slice B
          (shTag ++ l0 :: l1 :: l2 :: l3 :: (wireMagic Endianness.Little ++ rest)) =
        .error (.IncompleteBuffer
          (swapBytes32 (u32be l0 l1 l2 l3) - 8 - (rest.length + 4)))) := by
  refine ⟨?_, ?_, ?_, ?_⟩
  · intro B slice h
    unfold Block.from_slice
    rw [if_pos h]
  · intro B t0 t1 t2 t3 l0 l1 l2 l3 rest htype hrest hmod hmin hshort
    have hlen : ¬ ((t0 :: t1 :: t2 :: t3 :: l0 :: l1 :: l2 :: l3 :: rest).length < 12) := by
      simp only [List.length_cons]
      omega
    have hmod' : ¬ (readU32val B l0 l1 l2 l3 % 4 ≠ 0) := by omega
    have hmin' : ¬ (readU32val B l0 l1 l2 l3 < 12) := by omega
    unfold Block.from_slice
    rw [if_neg hlen]
    simp only [readU32_cons]
    rw [if_neg htype, if_neg hmod', if_neg hmin', if_pos hshort]
  · intro B l0 l1 l2 l3 rest hmod hmin hshort
    have hlen : ¬ ((shTag ++ l0 :: l1 :: l2 :: l3 ::
        (wireMagic Endianness.Big ++ rest)).length < 12) := by
      simp [shTag, wireMagic]
    have htag : BlockType.fromU32 (readU32val B (byteOf 0x0A) (byteOf 0x0D) (byteOf 0x0D)
        (byteOf 0x0A)) = BlockType.SectionHeader := by cases B <;> decide
    have hmagval : u32be (byteOf 0x1A) (byteOf 0x2B) (byteOf 0x3C) (byteOf 0x4D) =
        0x1A2B3C4D := by decide
    have hmod' : ¬ (u32be l0 l1 l2 l3 % 4 ≠ 0) := by omega
    have hmin' : ¬ (u32be l0 l1 l2 l3 < 12) := by omega
    have hshort' : (byteOf 0x1A :: byteOf 0x2B :: byteOf 0x3C :: byteOf 0x4D :: rest).length <
        u32be l0 l1 l2 l3 - 8 := by
      simp only [List.length_cons]
      omega
    unfold Block.from_slice
    rw [if_neg hlen]
    simp only [shTag, wireMagic, List.cons_append, List.nil_append, readU32_cons]
    rw [if_pos htag]
    simp only [readU32val, hmagval]
    simp [hmod', hmin', hshort']
    intro hcontra
    exact absurd hcontra (by omega)
  · intro B l0 l1 l2 l3 rest hmod hmin hshort
    have hlen : ¬ ((shTag ++ l0 :: l1 :: l2 :: l3 ::
        (wireMagic Endianness.Little ++ rest)).length < 12) := by
      simp [shTag, wireMagic]
    have htag : BlockType.fromU32 (readU32val B (byteOf 0x0A) (byteOf 0x0D) (byteOf 0x0D)
        (byteOf 0x0A)) = BlockType.SectionHeader := by cases B <;> decide
    have hmagval : u32be (byteOf 0x4D) (byteOf 0x3C) (byteOf 0x2B) (byteOf 0x1A) =
        0x4D3C2B1A := by decide
    have hmod' : ¬ (swapBytes32 (u32be l0 l1 l2 l3) % 4 ≠ 0) := by omega
    have hmin' : ¬ (swapBytes32 (u32be l0 l1 l2 l3) < 12) := by omega
    have hshort' : (byteOf 0x4D :: byteOf 0x3C :: byteOf 0x2B :: byteOf 0x1A :: rest).length <
        swapBytes32 (u32be l0 l1 l2 l3) - 8 := by
      simp only [List.length_cons]
      omega
    unfold Block.from_slice
    rw [if_neg hlen]
    simp only [shTag, wireMagic, List.cons_append, List.nil_append, readU32_cons]
    rw [if_pos htag]
    simp only [readU32val, hmagval]
    simp [hmod', hmin', hshort']
    intro hcontra
    exact absurd hcontra (by omega)

/-- Witness for C4: a 1-byte slice needs 11 more bytes; truncated common,
big-endian SectionHeader and little-endian SectionHeader blocks each report
their exact shortfall. -/
theorem c4_incomplete_buffer_witness :
    Block.from_slice Endianness.Big [byteOf 0] = .error (.IncompleteBuffer 11) ∧
    Block.from_slice Endianness.Big
        (byteOf 0 :: byteOf 0 :: byteOf 0 :: byteOf 1 :: byteOf 0 :: byteOf 0 :: byteOf 0 ::
          byteOf 16 :: [byteOf 0, byteOf 0, byteOf 0, byteOf 0]) =
      .error (.IncompleteBuffer 4) ∧
    Block.from_slice Endianness.Big
        (shTag ++ byteOf 0 :: byteOf 0 :: byteOf 0 :: byteOf 20 ::
          (wireMagic Endianness.Big ++ [])) =
      .error (.IncompleteBuffer 8) ∧
    Block.from_slice Endianness.Big
        (shTag ++ byteOf 20 :: byteOf 0 :: byteOf 0 :: byteOf 0 ::
          (wireMagic Endianness.Little ++ [])) =
      .error (.IncompleteBuffer 8) :=
  ⟨c4_incomplete_buffer.1 Endianness.Big [byteOf 0] (by decide),
   c4_incomplete_buffer.2.1 Endianness.Big (byteOf 0) (byteOf 0) (byteOf 0) (byteOf 1)
     (byteOf 0) (byteOf 0) (byteOf 0) (byteOf 16) [byteOf 0, byteOf 0, byteOf 0, byteOf 0]
     (by decide) (by decide) (by decide) (by decide) (by decide),
   c4_incomplete_buffer.2.2.1 Endianness.Big (byteOf 0) (byteOf 0) (byteOf 0) (byteOf 20) []
     (by decide) (by decide) (by decide),
   c4_incomplete_buffer.2.2.2 Endianness.Big (byteOf 20) (byteOf 0) (byteOf 0) (byteOf 0) []
     (by decide) (by decide) (by decide)⟩

lemma magicOptionLittle :
    (if (0x4D3C2B1A : Nat) = 0x1A2B3C4D then some Endianness.Big
     else if (0x4D3C2B1A : Nat) = 0x4D3C2B1A then some Endianness.Little
     else none) = some Endianness.Little := by decide

/-- Claim C2: in both `Block::from_reader` and `Block::from_slice`, a
SectionHeader tag makes the leading length be read big-endian and the next
four bytes a magic: `0x1A2B3C4D` gives endianness Big, `0x4D3C2B1A` gives
Little and byte-swaps `initial_len`, anything else fails with
`InvalidField`; the rest of the block is read in the discovered order, so
the result is independent of the caller-asserted order parameter. -/
theorem c2_section_header_magic :
    (∀ (B : Endianness) (l0 l1 l2 l3 m0 m1 m2 m3 : Byte) (rest : List Byte),
      u32be m0 m1 m2 m3 ≠ 0x1A2B3C4D → u32be m0 m1 m2 m3 ≠ 0x4D3C2B1A →
      Block.from_slice B
          (shTag ++ l0 :: l1 :: l2 :: l3 :: m0 :: m1 :: m2 :: m3 :: rest) =
        .error (.InvalidField "SectionHeaderBlock: invalid magic number")) ∧
    (∀ (B : Endianness) (l0 l1 l2 l3 m0 m1 m2 m3 : Byte) (rest : List Byte),
      u32be m0 m1 m2 m3 ≠ 0x1A2B3C4D → u32be m0 m1 m2 m3 ≠ 0x4D3C2B1A →
      Block.from_reader B
          (shTag ++ l0 :: l1 :: l2 :: l3 :: m0 :: m1 :: m2 :: m3 :: rest) =
        .error (.InvalidField "SectionHeaderBlock: invalid magic number")) ∧
    (∀ (B : Endianness) (l0 l1 l2 l3 : Byte) (rest rem : List Byte) (blk : Block),
      Block.from_slice B
          (shTag ++ l0 :: l1 :: l2 :: l3 :: (wireMagic Endianness.Big ++ rest)) =
        .ok (rem, blk) →
      blk.endianness = Endianness.Big ∧ blk.initial_len = u32be l0 l1 l2 l3) ∧
    (∀ (B : Endianness) (l0 l1 l2 l3 : Byte) (rest rem : List Byte) (blk : Block),
      Block.from_slice B
          (shTag ++ l0 :: l1 :: l2 :: l3 :: (wireMagic Endianness.Little ++ rest)) =
        .ok (rem, blk) →
      blk.endianness = Endianness.Little ∧
        blk.initial_len = swapBytes32 (u32be l0 l1 l2 l3)) ∧
    (∀ (B : Endianness) (l0 l1 l2 l3 : Byte) (rest rest2 : List Byte) (blk : Block),
      Block.from_reader B
          (shTag ++ l0 :: l1 :: l2 :: l3 :: (wireMagic Endianness.Big ++ rest)) =
        .ok (blk, rest2) →
      blk.endianness = Endianness.Big ∧ blk.initial_len = u32be l0 l1 l2 l3) ∧
    (∀ (B : Endianness) (l0 l1 l2 l3 : Byte) (rest rest2 : List Byte) (blk : Block),
      Block.from_reader B
          (shTag ++ l0 :: l1 :: l2 :: l3 :: (wireMagic Endianness.Little ++ rest)) =
        .ok (blk, rest2) →
      blk.endianness = Endianness.Little ∧
        blk.initial_len = swapBytes32 (u32be l0 l1 l2 l3)) ∧
    (∀ (B Bp : Endianness) (rest : List Byte),
      Block.from_slice B (shTag ++ rest) = Block.from_slice Bp (shTag ++ rest)) ∧
    (∀ (B Bp : Endianness) (rest : List Byte),
      Block.from_reader B (shTag ++ rest) = Block.from_reader Bp (shTag ++ rest)) := by
  refine ⟨?_, ?_, ?_, ?_, ?_, ?_, ?_, ?_⟩
  · intro B l0 l1 l2 l3 m0 m1 m2 m3 rest hm1 hm2
    have hlen : ¬ ((shTag ++ l0 :: l1 :: l2 :: l3 :: m0 :: m1 :: m2 :: m3 :: rest).length <
        12) := by simp [shTag]
    unfold Block.from_slice
    rw [if_neg hlen]
    simp only [shTag, List.cons_append, List.nil_append, readU32_cons]
    rw [if_pos (fromU32_shTagVal B)]
    simp only [readU32val]
    rw [if_neg hm1, if_neg hm2]
  · intro B l0 l1 l2 l3 m0 m1 m2 m3 rest hm1 hm2
    unfold Block.from_reader
    simp only [shTag, List.cons_append, List.nil_append, readU32_cons]
    rw [if_pos (fromU32_shTagVal B)]
    simp only [readU32val]
    rw [if_neg hm1, if_neg hm2]
  · intro B l0 l1 l2 l3 rest rem blk h
    simp only [shTag, wireMagic, List.cons_append, List.nil_append] at h
    unfold Block.from_slice at h
    split at h
    · simp at h
    simp only [readU32_cons] at h
    rw [if_pos (fromU32_shTagVal B)] at h
    have hmagval : readU32val Endianness.Big (byteOf 0x1A) (byteOf 0x2B) (byteOf 0x3C)
        (byteOf 0x4D) = 0x1A2B3C4D := by decide
    simp only [hmagval, reduceIte] at h
    repeat' split at h
    all_goals try (solve | (simp at h) | (exfalso; simp_all))
    simp only [Except.ok.injEq, Prod.mk.injEq] at h
    obtain ⟨-, h2⟩ := h
    subst h2
    exact ⟨rfl, rfl⟩
  · intro B l0 l1 l2 l3 rest rem blk h
    simp only [shTag, wireMagic, List.cons_append, List.nil_append] at h
    unfold Block.from_slice at h
    split at h
    · simp at h
    simp only [readU32_cons] at h
    rw [if_pos (fromU32_shTagVal B)] at h
    have hmagval : readU32val Endianness.Big (byteOf 0x4D) (byteOf 0x3C) (byteOf 0x2B)
        (byteOf 0x1A) = 0x4D3C2B1A := by decide
    simp only [hmagval, magicOptionLittle, reduceIte] at h
    repeat' split at h
    all_goals try (solve | (simp at h) | (exfalso; simp_all))
    simp only [Except.ok.injEq, Prod.mk.injEq] at h
    obtain ⟨-, h2⟩ := h
    subst h2
    exact ⟨by assumption, rfl⟩
  · intro B l0 l1 l2 l3 rest rest2 blk h
    simp only [shTag, wireMagic, List.cons_append, List.nil_append] at h
    unfold Block.from_reader at h
    simp only [readU32_cons] at h
    rw [if_pos (fromU32_shTagVal B)] at h
    have hmagval : readU32val Endianness.Big (byteOf 0x1A) (byteOf 0x2B) (byteOf 0x3C)
        (byteOf 0x4D) = 0x1A2B3C4D := by decide
    simp only [hmagval, reduceIte] at h
    repeat' split at h
    all_goals try (solve | (simp at h) | (exfalso; simp_all))
    simp only [Except.ok.injEq, Prod.mk.injEq] at h
    obtain ⟨h2, -⟩ := h
    subst h2
    exact ⟨rfl, rfl⟩
  · intro B l0 l1 l2 l3 rest rest2 blk h
    simp only [shTag, wireMagic, List.cons_append, List.nil_append] at h
    unfold Block.from_reader at h
    simp only [readU32_cons] at h
    rw [if_pos (fromU32_shTagVal B)] at h
    have hmagval : readU32val Endianness.Big (byteOf 0x4D) (byteOf 0x3C) (byteOf 0x2B)
        (byteOf 0x1A) = 0x4D3C2B1A := by decide
    simp only [hmagval, magicOptionLittle, reduceIte] at h
    repeat' split at h
    all_goals try (solve | (simp at h) | (exfalso; simp_all))
    simp only [Except.ok.injEq, Prod.mk.injEq] at h
    obtain ⟨h2, -⟩ := h
    subst h2
    exact ⟨by assumption, rfl⟩
  · intro B Bp rest
    unfold Block.from_slice
    by_cases h12 : (shTag ++ rest).length < 12
    · rw [if_pos h12, if_pos h12]
    rw [if_neg h12, if_neg h12]
    simp only [shTag, List.cons_append, List.nil_append, readU32_cons]
    rw [fromU32_shTagVal B, fromU32_shTagVal Bp, if_pos rfl, if_pos rfl]
  · intro B Bp rest
    unfold Block.from_reader
    simp only [shTag, List.cons_append, List.nil_append, readU32_cons]
    rw [fromU32_shTagVal B, fromU32_shTagVal Bp, if_pos rfl, if_pos rfl]

/-- Witness for C2 at concrete 16-byte section headers and an invalid magic. -/
theorem c2_section_header_magic_witness :
    Block.from_slice Endianness.Big
        (shTag ++ byteOf 0 :: byteOf 0 :: byteOf 0 :: byteOf 16 ::
          byteOf 0xFF :: byteOf 0xFF :: byteOf 0xFF :: byteOf 0xFF :: []) =
      .error (.InvalidField "SectionHeaderBlock: invalid magic number") ∧
    Block.from_reader Endianness.Big
        (shTag ++ byteOf 0 :: byteOf 0 :: byteOf 0 :: byteOf 16 ::
          byteOf 0xFF :: byteOf 0xFF :: byteOf 0xFF :: byteOf 0xFF :: []) =
      .error (.InvalidField "SectionHeaderBlock: invalid magic number") ∧
    (Endianness.Big = Endianness.Big ∧
      (16 : Nat) = u32be (byteOf 0) (byteOf 0) (byteOf 0) (byteOf 16)) ∧
    (Endianness.Little = Endianness.Little ∧
      (16 : Nat) = swapBytes32 (u32be (byteOf 16) (byteOf 0) (byteOf 0) (byteOf 0))) ∧
    (Endianness.Big = Endianness.Big ∧
      (16 : Nat) = u32be (byteOf 0) (byteOf 0) (byteOf 0) (byteOf 16)) ∧
    (Endianness.Little = Endianness.Little ∧
      (16 : Nat) = swapBytes32 (u32be (byteOf 16) (byteOf 0) (byteOf 0) (byteOf 0))) :=
  ⟨c2_section_header_magic.1 Endianness.Big (byteOf 0) (byteOf 0) (byteOf 0) (byteOf 16)
      (byteOf 0xFF) (byteOf 0xFF) (byteOf 0xFF) (byteOf 0xFF) [] (by decide) (by decide),
   c2_section_header_magic.2.1 Endianness.Big (byteOf 0) (byteOf 0) (byteOf 0) (byteOf 16)
      (byteOf 0xFF) (byteOf 0xFF) (byteOf 0xFF) (byteOf 0xFF) [] (by decide) (by decide),
   c2_section_header_magic.2.2.1 Endianness.Big (byteOf 0) (byteOf 0) (byteOf 0) (byteOf 16)
      [byteOf 0, byteOf 0, byteOf 0, byteOf 16] []
      ⟨BlockType.SectionHeader, 16, wireMagic Endianness.Big, 16, Endianness.Big⟩
      (by decide),
   c2_section_header_magic.2.2.2.1 Endianness.Big (byteOf 16) (byteOf 0) (byteOf 0)
      (byteOf 0) [byteOf 16, byteOf 0, byteOf 0, byteOf 0] []
      ⟨BlockType.SectionHeader, 16, wireMagic Endianness.Little, 16, Endianness.Little⟩
      (by decide),
   c2_section_header_magic.2.2.2.2.1 Endianness.Big (byteOf 0) (byteOf 0) (byteOf 0)
      (byteOf 16) [byteOf 0, byteOf 0, byteOf 0, byteOf 16] []
      ⟨BlockType.SectionHeader, 16, wireMagic Endianness.Big, 16, Endianness.Big⟩
      (by decide),
   c2_section_header_magic.2.2.2.2.2.1 Endianness.Big (byteOf 16) (byteOf 0) (byteOf 0)
      (byteOf 0) [byteOf 16, byteOf 0, byteOf 0, byteOf 0] []
      ⟨BlockType.SectionHeader, 16, wireMagic Endianness.Little, 16, Endianness.Little⟩
      (by decide)⟩

/-- Claim C7: a successful SectionHeader decode via `Block::from_reader`
produces a body of length `initial_len - 12` whose first four bytes are the
big-endian serialization of the magic consumed from the stream (its original
wire bytes), followed by the next `initial_len - 16` stream bytes verbatim. -/
theorem c7_reader_sh_body (B : Endianness) (l0 l1 l2 l3 m0 m1 m2 m3 : Byte)
    (rest rest2 : List Byte) (blk : Block)
    (h : Block.from_reader B
        (shTag ++ l0 :: l1 :: l2 :: l3 :: m0 :: m1 :: m2 :: m3 :: rest) =
      .ok (blk, rest2)) :
    blk.body.length = blk.initial_len - 12 ∧
    blk.body.take 4 = [m0, m1, m2, m3] ∧
    blk.body.drop 4 = rest.take (blk.initial_len - 16) := by
  simp only [shTag, List.cons_append, List.nil_append] at h
  unfold Block.from_reader at h
  simp only [readU32_cons] at h
  rw [if_pos (fromU32_shTagVal B)] at h
  split at h
  case h_1 => simp at h
  rename_i e heq
  set il := (if e = Endianness.Little then
      swapBytes32 (readU32val Endianness.Big l0 l1 l2 l3)
    else readU32val Endianness.Big l0 l1 l2 l3) with hil
  by_cases hmod : il % 4 ≠ 0
  · rw [if_pos hmod] at h; simp at h
  rw [if_neg hmod] at h
  by_cases hmin : il < 12
  · rw [if_pos hmin] at h; simp at h
  rw [if_neg hmin] at h
  by_cases h4 : il - 12 < 4
  · rw [if_pos h4] at h; simp at h
  rw [if_neg h4] at h
  cases hre : readExact (il - 12 - 4) rest with
  | none => rw [hre] at h; simp at h
  | some pe =>
    obtain ⟨tail, s4⟩ := pe
    simp only [hre] at h
    obtain ⟨htail, hs4, hexlen, htail_len⟩ := readExact_eq_some hre
    cases hr3 : readU32 e s4 with
    | none => rw [hr3] at h; simp at h
    | some p3 =>
      obtain ⟨trailer_len, s5⟩ := p3
      simp only [hr3] at h
      split at h
      · simp at h
      simp only [Except.ok.injEq, Prod.mk.injEq] at h
      obtain ⟨h2, -⟩ := h
      subst h2
      dsimp only
      refine ⟨?_, ?_, ?_⟩
      · simp only [List.length_append, bytesOfU32_length, htail_len]
        omega
      · rw [List.take_left' (bytesOfU32_length _ _)]
        exact bytesOfU32_big_u32be m0 m1 m2 m3
      · rw [List.drop_left' (bytesOfU32_length _ _), htail]
        congr 1

/-- Witness for C7 on a concrete big-endian 16-byte SectionHeader stream. -/
theorem c7_reader_sh_body_witness :
    ([byteOf 0x1A, byteOf 0x2B, byteOf 0x3C, byteOf 0x4D] : List Byte).length = 16 - 12 ∧
    ([byteOf 0x1A, byteOf 0x2B, byteOf 0x3C, byteOf 0x4D] : List Byte).take 4 =
      [byteOf 0x1A, byteOf 0x2B, byteOf 0x3C, byteOf 0x4D] ∧
    ([byteOf 0x1A, byteOf 0x2B, byteOf 0x3C, byteOf 0x4D] : List Byte).drop 4 =
      List.take (16 - 16) [byteOf 0, byteOf 0, byteOf 0, byteOf 16] :=
  c7_reader_sh_body Endianness.Big (byteOf 0) (byteOf 0) (byteOf 0) (byteOf 16)
    (byteOf 0x1A) (byteOf 0x2B) (byteOf 0x3C) (byteOf 0x4D)
    [byteOf 0, byteOf 0, byteOf 0, byteOf 16] []
    ⟨BlockType.SectionHeader, 16, [byteOf 0x1A, byteOf 0x2B, byteOf 0x3C, byteOf 0x4D], 16,
      Endianness.Big⟩ (by decide)

lemma readU32_bytesOf (e : Endianness) (n : Nat) :
    readU32 e (bytesOfU32 e n) = some (n % 2 ^ 32, []) := by
  have h := readU32_append_bytesOf e n []
  simpa using h

lemma readU32_wireMagic_big (rest : List Byte) :
    readU32 Endianness.Big (wireMagic Endianness.Big ++ rest) =
      some (0x1A2B3C4D, rest) := rfl

lemma readU32_wireMagic_little (rest : List Byte) :
    readU32 Endianness.Big (wireMagic Endianness.Little ++ rest) =
      some (0x4D3C2B1A, rest) := rfl

lemma magicOptionBig :
    (if (0x1A2B3C4D : Nat) = 0x1A2B3C4D then some Endianness.Big
     else if (0x1A2B3C4D : Nat) = 0x4D3C2B1A then some Endianness.Little
     else none) = some Endianness.Big := by decide

/-- Claim C1 as stated is refuted: the well-formedness conditions it lists
admit `Unknown 1`, whose wire code is the InterfaceDescription constant, so
decoding the serialized block yields a different `type_`. -/
theorem c1_roundtrip_counterexample :
    ((12 : Nat) = List.length ([] : List Byte) + 12) ∧ ((12 : Nat) % 4 = 0) ∧
    BlockType.Unknown 1 ≠ BlockType.SectionHeader ∧
    Block.from_slice Endianness.Big
        (Block.write_to Endianness.Big
          ⟨BlockType.Unknown 1, 12, [], 12, Endianness.Big⟩).1 ≠
      .ok ([], ⟨BlockType.Unknown 1, 12, [], 12, Endianness.Big⟩) := by
  decide

/-- Claim C1 (amended): for every well-formed block whose type code also maps
back to its tag (`from(into(type_)) = type_`, excluding only non-canonical
`Unknown` values such as `Unknown 1`; type code and lengths within u32
range, as forced by their Rust types), serializing with `write_to` in the
block's byte order and decoding with `from_slice` in that order returns the
same block and an empty remainder - for every block kind, including
SectionHeader under both magic values. -/
theorem c1_roundtrip_amended (blk : Block)
    (hcanon : BlockType.fromU32 blk.type_.intoU32 = blk.type_)
    (hcode : blk.type_.intoU32 < 2 ^ 32)
    (hinit : blk.initial_len = blk.body.length + 12)
    (htrail : blk.trailer_len = blk.body.length + 12)
    (halign : blk.initial_len % 4 = 0)
    (hrep : blk.initial_len < 2 ^ 32)
    (hmagic : blk.type_ = BlockType.SectionHeader →
      blk.body.take 4 = wireMagic blk.endianness) :
    Block.from_slice blk.endianness (Block.write_to blk.endianness blk).1 =
      .ok ([], blk) := by
  obtain ⟨t, il, body, tl, E⟩ := blk
  dsimp only at hcanon hcode hinit htrail halign hrep hmagic ⊢
  subst hinit
  subst htrail
  unfold Block.write_to
  dsimp only
  have hlen : ¬ ((bytesOfU32 E t.intoU32 ++ bytesOfU32 E (body.length + 12) ++ body ++
      bytesOfU32 E (body.length + 12)).length < 12) := by
    simp only [List.length_append, bytesOfU32_length]
    omega
  unfold Block.from_slice
  rw [if_neg hlen]
  simp only [List.append_assoc]
  simp only [readU32_append_bytesOf]
  rw [Nat.mod_eq_of_lt hcode]
  simp only [hcanon]
  by_cases ht : t = BlockType.SectionHeader
  · -- SectionHeader case
    subst ht
    rw [if_pos rfl]
    have hm := hmagic rfl
    have hlen4 : 4 ≤ body.length := by
      have hl := congrArg List.length hm
      cases E <;> simp only [List.length_take, wireMagic, List.length_cons,
        List.length_nil] at hl <;> omega
    have hbody : body = wireMagic E ++ body.drop 4 := by
      conv_lhs => rw [← List.take_append_drop 4 body]
      rw [hm]
    cases E
    · -- Big
      simp only [readU32_append_bytesOf]
      rw [Nat.mod_eq_of_lt hrep]
      have hmagicread : ∀ X : List Byte, readU32 Endianness.Big (body ++ X) =
          some (0x1A2B3C4D, body.drop 4 ++ X) := by
        intro X
        conv_lhs => rw [hbody]
        rw [List.append_assoc]
        exact readU32_wireMagic_big _
      simp only [hmagicread, if_true,
        if_neg (show ¬(Endianness.Big = Endianness.Little) from by decide)]
      rw [if_neg (by omega : ¬((body.length + 12) % 4 ≠ 0))]
      rw [if_neg (by omega : ¬(body.length + 12 < 12))]
      have hbuf : ¬ ((body ++ bytesOfU32 Endianness.Big (body.length + 12)).length <
          body.length + 12 - 8) := by
        simp only [List.length_append, bytesOfU32_length]
        omega
      rw [if_neg hbuf]
      simp only [Nat.add_sub_cancel, List.take_left, List.drop_left]
      simp only [readU32_bytesOf]
      rw [Nat.mod_eq_of_lt hrep]
      rw [if_neg (show ¬(body.length + 12 ≠ body.length + 12) from fun hh => hh rfl)]
    · -- Little
      simp only [readU32_big_bytesOf_little]
      have hmagicread : ∀ X : List Byte, readU32 Endianness.Big (body ++ X) =
          some (0x4D3C2B1A, body.drop 4 ++ X) := by
        intro X
        conv_lhs => rw [hbody]
        rw [List.append_assoc]
        exact readU32_wireMagic_little _
      simp only [hmagicread,
        if_neg (show ¬((0x4D3C2B1A : Nat) = 0x1A2B3C4D) from by decide), if_true]
      rw [swapBytes32_swapBytes32 _ hrep]
      rw [if_neg (by omega : ¬((body.length + 12) % 4 ≠ 0))]
      rw [if_neg (by omega : ¬(body.length + 12 < 12))]
      have hbuf : ¬ ((body ++ bytesOfU32 Endianness.Little (body.length + 12)).length <
          body.length + 12 - 8) := by
        simp only [List.length_append, bytesOfU32_length]
        omega
      rw [if_neg hbuf]
      simp only [Nat.add_sub_cancel, List.take_left, List.drop_left]
      simp only [readU32_bytesOf]
      rw [Nat.mod_eq_of_lt hrep]
      rw [if_neg (show ¬(body.length + 12 ≠ body.length + 12) from fun hh => hh rfl)]
  · -- common case
    rw [if_neg ht]
    rw [Nat.mod_eq_of_lt hrep]
    rw [if_neg (by omega : ¬((body.length + 12) % 4 ≠ 0))]
    rw [if_neg (by omega : ¬(body.length + 12 < 12))]
    have hbuf : ¬ ((body ++ bytesOfU32 E (body.length + 12)).length <
        body.length + 12 - 8) := by
      simp only [List.length_append, bytesOfU32_length]
      omega
    rw [if_neg hbuf]
    simp only [Nat.add_sub_cancel, List.take_left, List.drop_left]
    simp only [readU32_bytesOf]
    rw [Nat.mod_eq_of_lt hrep]
    rw [if_neg (show ¬(body.length + 12 ≠ body.length + 12) from fun hh => hh rfl)]

/-- Witness for the amended C1 on a concrete little-endian section header. -/
theorem c1_roundtrip_amended_witness :
    Block.from_slice Endianness.Little
        (Block.write_to Endianness.Little
          ⟨BlockType.SectionHeader, 16, wireMagic Endianness.Little, 16,
            Endianness.Little⟩).1 =
      .ok ([], ⟨BlockType.SectionHeader, 16, wireMagic Endianness.Little, 16,
        Endianness.Little⟩) :=
  c1_roundtrip_amended
    ⟨BlockType.SectionHeader, 16, wireMagic Endianness.Little, 16, Endianness.Little⟩
    (by decide) (by decide) (by decide) (by decide) (by decide) (by decide) (by decide)
